import Mathlib

/-!
Verification development for the AArch64 DRC back-end
(src/src/devices/cpu/drcbearm64.cpp).

The development is a shallow embedding of the code generator.  Pure
generation-time decision logic (which host instructions are chosen) is
translated into Lean functions producing instruction descriptors, and the
runtime behaviour of the generated straight-line code is translated into
state-transformer functions over an explicit machine state, one Lean
binding per emitted host instruction.  Machine integers are modelled as
Nat with explicit reductions modulo 2^32 / 2^64 where the hardware
truncates.
-/

namespace Drcbearm64

/-! ## Basic 64-bit arithmetic helpers -/
/-- Mask of `n` one bits, the model of util::make_bitmask<uint64_t>(n)
(which yields all ones for n = 64). -/
def bmask (n : Nat) : Nat := 2 ^ n - 1

/-- Truncation to `bits` bits (the effect of storing to a register of that
width). -/
def trunc (bits v : Nat) : Nat := v % 2 ^ bits

/-- Signed reinterpretation of a `bits`-bit value. -/
def sextN (bits v : Nat) : Int :=
  if v % 2 ^ bits < 2 ^ (bits - 1) then (v % 2 ^ bits : Int)
  else (v % 2 ^ bits : Int) - 2 ^ bits

/-- Wrap an integer into an unsigned `bits`-bit value. -/
def wrapI (bits : Nat) (i : Int) : Nat := (i % (2 ^ bits : Nat)).toNat

/-- The A64 BFI instruction on a 64-bit destination: replace `w` bits of
`old` starting at bit `lsb` with the low `w` bits of `src`. -/
def bfi64 (old src lsb w : Nat) : Nat :=
  old % 2 ^ lsb + src % 2 ^ w * 2 ^ lsb + old / 2 ^ (lsb + w) * 2 ^ (lsb + w)

/-- Signed `bits`-bit range test, the model of is_valid_immediate_signed. -/
def signedFits (i : Int) (bits : Nat) : Prop :=
  -(2 ^ (bits - 1) : Nat) ≤ i ∧ i < (2 ^ (bits - 1) : Nat)

instance (i : Int) (bits : Nat) : Decidable (signedFits i bits) := by
  unfold signedFits; infer_instance

/-! ## Byte-granular little-endian memory -/
/-- Read `k` bytes little-endian starting at `a`. -/
def readMem (m : Nat → Nat) (a : Nat) : Nat → Nat
  | 0 => 0
  | k + 1 => m a % 256 + 256 * readMem m (a + 1) k

/-- Write the low `k` bytes of `v` little-endian starting at `a`. -/
def writeMem (m : Nat → Nat) (a : Nat) : Nat → Nat → (Nat → Nat)
  | 0, _ => m
  | k + 1, v => writeMem (fun i => if i = a then v % 256 else m i) (a + 1) k (v / 256)

/-! ## Host register ids

The fixed register assignment from the head of drcbearm64.cpp: x9-x11 are
TEMP_REG1-TEMP_REG3, x12/x13 SCRATCH_REG1/SCRATCH_REG2, x14
MEM_SCRATCH_REG, x15 FUNC_SCRATCH_REG, x19-x26 the UML integer registers
I0-I7 (int_register_map), x27 BASE_REG, x28 FLAGS_REG.  Register 31 reads
as zero and discards writes (xzr). -/
def TEMP_REG1 : Nat := 9

def TEMP_REG2 : Nat := 10

def TEMP_REG3 : Nat := 11

def SCRATCH_REG1 : Nat := 12

def SCRATCH_REG2 : Nat := 13

def FUNC_SCRATCH_REG : Nat := 15

def FLAGS_REG : Nat := 28

def REG_PARAM1 : Nat := 0

def REG_PARAM2 : Nat := 1

/-- UML flag bit numbers and masks (FLAG_BIT_C = 0 ... FLAG_BIT_U = 4). -/
def FLAG_C : Nat := 1

def FLAG_V : Nat := 2

def FLAG_Z : Nat := 4

def FLAG_S : Nat := 8

def FLAG_U : Nat := 16

/-- The host is little-endian (util::endianness::native); the big-endian
branches of the cold-register moves are kept in the definitions with this
switch so they can be read against the source. -/
def hostBigEndian : Bool := false

/-! ## Back-end parameters (be_parameter) -/
/-- A back-end parameter: immediate, host integer register, or memory
pointer with the cold-register bit.  (Float registers are not needed by
the claims.)  Integer-register parameters derived from UML registers
always carry one of the int_register_map ids x19-x26. -/
inductive BeParam where
  | imm (v : Nat)
  | intReg (i : Nat)
  | mem (a : Nat) (cold : Bool)
deriving DecidableEq, Repr

namespace BeParam

/-- be_parameter::operator== compares type and value only (the coldreg
bit does not participate). -/
def peq : BeParam → BeParam → Bool
  | .imm v, .imm w => v == w
  | .intReg i, .intReg j => i == j
  | .mem a _, .mem b _ => a == b
  | _, _ => false

def isImm : BeParam → Bool
  | .imm _ => true
  | _ => false

def isImmValue (x : Nat) : BeParam → Bool
  | .imm v => v == x
  | _ => false

def isIntReg : BeParam → Bool
  | .intReg _ => true
  | _ => false

/-- be_parameter::immediate(). -/
def immValue : BeParam → Nat
  | .imm v => v
  | _ => 0

def isColdReg : BeParam → Bool
  | .mem _ cold => cold
  | _ => false

/-- be_parameter::select_register: a register parameter supplies its own
register, anything else uses the provided default. -/
def selectReg (p : BeParam) (default : Nat) : Nat :=
  match p with
  | .intReg i => i
  | _ => default

/-- Well-formedness of a parameter produced by the be_parameter
constructor from a UML instruction: integer-register parameters hold one
of the int_register_map host registers x19-x26. -/
def wf : BeParam → Prop
  | .intReg i => 19 ≤ i ∧ i ≤ 26
  | _ => True

instance : DecidablePred wf := by
  intro p; unfold wf; cases p <;> infer_instance

end BeParam

/-! ## Machine state

The runtime state of generated code: the host general registers (values
kept below 2^64 by masking writes), the native NZCV flags, byte-granular
memory, plus the fields of the translator that the claims observe: the
generation-time carry-state tracking (m_carry_state), the persisted
near-state emulated-flags word (m_near.emulated_flags), the m_state.exp
slot, and the stack/frame pointers. -/
inductive CarryState where
  | POISON
  | CANONICAL
  | LOGICAL
deriving DecidableEq, Repr

structure S where
  regs : Nat → Nat
  n : Bool
  z : Bool
  c : Bool
  v : Bool
  mem : Nat → Nat
  carry : CarryState
  nearFlags : Nat
  exp : Nat
  sp : Nat
  fp : Nat

namespace S

/-- Read a 64-bit register (x31 reads as zero). -/
def getX (s : S) (r : Nat) : Nat := if r = 31 then 0 else s.regs r % 2 ^ 64

/-- Read a register at width 4 or 8 bytes (a W read sees the low 32 bits). -/
def getR (w : Nat) (s : S) (r : Nat) : Nat :=
  if w = 4 then s.getX r % 2 ^ 32 else s.getX r

/-- Write a 64-bit register (writes to x31 are discarded). -/
def setX (r v : Nat) (s : S) : S :=
  { s with regs := fun i => if i = r ∧ r ≠ 31 then v % 2 ^ 64 else s.regs i }

/-- Write a register at width 4 or 8 bytes; a W write zero-extends into
the full 64-bit register. -/
def setR (w r v : Nat) (s : S) : S :=
  if w = 4 then s.setX r (v % 2 ^ 32) else s.setX r v

end S

/-! ## Host instruction semantics

Value-level semantics of the A64 instructions the generator emits, each
used by the state-transformer translation of the opcode generators. -/
/-- AddWithCarry at `bits` bits: result plus the NZCV flags.  Both
operands are reduced to the operation width first. -/
def addCore (bits a b : Nat) (cin : Bool) :
    Nat × (Bool × Bool × Bool × Bool) :=
  let a := a % 2 ^ bits
  let b := b % 2 ^ bits
  let tot := a + b + (if cin then 1 else 0)
  let res := tot % 2 ^ bits
  (res, (res.testBit (bits - 1), decide (res = 0), decide (2 ^ bits ≤ tot),
    decide (sextN bits a + sextN bits b + (if cin then 1 else 0) ≠ sextN bits res)))

/-- Subtraction is AddWithCarry with the ones-complement of the second
operand, exactly as the hardware computes SUBS / SBCS / CMP. -/
def subCore (bits a b : Nat) (cin : Bool) :
    Nat × (Bool × Bool × Bool × Bool) :=
  addCore bits a (2 ^ bits - 1 - b % 2 ^ bits) cin

inductive ShiftKind where
  | lsl
  | lsr
  | asr
  | ror
deriving DecidableEq, Repr

/-- Value of a shift or rotate at `bits` bits with shift amount `sh < bits`
(register forms use the amount modulo the width, as the hardware does). -/
def shiftVal (k : ShiftKind) (bits a sh : Nat) : Nat :=
  let a := a % 2 ^ bits
  let sh := sh % bits
  match k with
  | .lsl => (a <<< sh) % 2 ^ bits
  | .lsr => a >>> sh
  | .asr => wrapI bits (Int.fdiv (sextN bits a) (2 ^ sh))
  | .ror => (a >>> sh ||| a <<< (bits - sh)) % 2 ^ bits

/-- A64 UDIV: zero divisor yields zero (Nat division agrees). -/
def udivVal (bits a b : Nat) : Nat := a % 2 ^ bits / (b % 2 ^ bits)

/-- A64 SDIV: signed division rounding toward zero, result wrapped to the
width; zero divisor yields zero. -/
def sdivVal (bits a b : Nat) : Nat :=
  wrapI bits (Int.tdiv (sextN bits a) (sextN bits b))

/-- A64 MSUB: acc - m * n wrapped to the width. -/
def msubVal (bits m n acc : Nat) : Nat :=
  wrapI bits ((acc % 2 ^ bits : Nat) - (m % 2 ^ bits : Nat) * (n % 2 ^ bits : Nat) : Int)

namespace S

/-- The NZCV system register value as read by MRS. -/
def nzcvVal (s : S) : Nat :=
  (if s.n then 2 ^ 31 else 0) + (if s.z then 2 ^ 30 else 0) +
    (if s.c then 2 ^ 29 else 0) + (if s.v then 2 ^ 28 else 0)

/-- MSR NZCV: set the flags from bits 31-28 of a value. -/
def msrNZCV (val : Nat) (s : S) : S :=
  { s with n := val.testBit 31, z := val.testBit 30,
           c := val.testBit 29, v := val.testBit 28 }

/-- CSET Xd, cond. -/
def cset (r : Nat) (b : Bool) (s : S) : S := s.setX r (if b then 1 else 0)

/-- BFI Xd, Xn, lsb, width. -/
def bfiReg (rd rs lsb w : Nat) (s : S) : S :=
  s.setX rd (bfi64 (s.getX rd) (s.getX rs) lsb w)

/-- ADD/ADDS/ADC/ADCS with the second operand already evaluated
(register or immediate); `setf` selects the flag-setting form. -/
def addOp (setf : Bool) (w rd : Nat) (a b : Nat) (cin : Bool) (s : S) : S :=
  let r := addCore (w * 8) a b cin
  let s := s.setR w rd r.1
  if setf then { s with n := r.2.1, z := r.2.2.1, c := r.2.2.2.1, v := r.2.2.2.2 } else s

/-- SUB/SUBS/SBC/SBCS (rd = 31 gives CMP). -/
def subOp (setf : Bool) (w rd : Nat) (a b : Nat) (cin : Bool) (s : S) : S :=
  let r := subCore (w * 8) a b cin
  let s := s.setR w rd r.1
  if setf then { s with n := r.2.1, z := r.2.2.1, c := r.2.2.2.1, v := r.2.2.2.2 } else s

/-- TST (ANDS with discarded result): sets N and Z, clears C and V. -/
def tstOp (w : Nat) (a b : Nat) (s : S) : S :=
  let bits := w * 8
  let res := a % 2 ^ bits &&& b % 2 ^ bits
  { s with n := res.testBit (bits - 1), z := decide (res = 0), c := false, v := false }

/-- AND (immediate or register form, no flags) at width `w`. -/
def andOp (w rd : Nat) (a b : Nat) (s : S) : S :=
  s.setR w rd (a &&& b)

/-- ORR with an optionally left-shifted second register operand (64-bit
form, as used by op_getflgs). -/
def orrShifted (rd rn rm sh : Nat) (s : S) : S :=
  s.setX rd (s.getX rn ||| (s.getX rm <<< sh) % 2 ^ 64)

/-- MOV (register or immediate already evaluated) at width `w`. -/
def movOp (w rd : Nat) (v : Nat) (s : S) : S := s.setR w rd v

end S

/-! ## Parameter moves (mov_reg_param and friends)

Runtime effect of the emitted code of the parameter-move helpers.  The
immediate case goes through get_imm_relative, whose every encoding
ladder branch materializes exactly the requested value into the target
register at the requested width. -/
/-- The value an instruction operating at width `w` observes for a
parameter: the register/memory/immediate contents reduced to the width.
The cold-register big-endian case reads the 4-byte element at the high
half of the 8-byte slot, as mov_reg_param loads it. -/
def paramVal (w : Nat) (s : S) (p : BeParam) : Nat :=
  match p with
  | .imm v => if w = 4 then v % 2 ^ 32 else v % 2 ^ 64
  | .intReg i => s.getR w i
  | .mem a cold =>
      if hostBigEndian ∧ w = 4 ∧ cold then readMem s.mem (a + 4) 4
      else readMem s.mem a w

/-- drcbe_arm64::mov_reg_param: load a parameter into a host register. -/
def mov_reg_param (w dst : Nat) (p : BeParam) (s : S) : S :=
  match p with
  | .imm v => s.setR w dst (if w = 4 then v % 2 ^ 32 else v)
  | .intReg i => if dst ≠ i then s.setR w dst (s.getR w i) else s
  | .mem a cold =>
      if hostBigEndian ∧ w = 4 ∧ cold then s.setR 4 dst (readMem s.mem (a + 4) 4)
      else s.setR w dst (readMem s.mem a w)

/-- drcbe_arm64::mov_param_reg: store a register to a parameter; a
cold-register memory destination always takes the full 8-byte store. -/
def mov_param_reg (w : Nat) (p : BeParam) (src : Nat) (s : S) : S :=
  match p with
  | .mem a cold =>
      if cold then { s with mem := writeMem s.mem a 8 (s.getX src) }
      else { s with mem := writeMem s.mem a w (s.getR w src) }
  | .intReg i => if src ≠ i then s.setR w i (s.getR w src) else s
  | .imm _ => s

/-- Observable contents of a destination parameter (the bytes
mov_param_reg would have written: full slot for cold registers). -/
def destVal (w : Nat) (s : S) (p : BeParam) : Nat :=
  match p with
  | .imm v => v
  | .intReg i => s.getR w i
  | .mem a cold => if cold then readMem s.mem a 8 else readMem s.mem a w

/-! ## Flag emulation helpers -/
/-- store_carry_reg: BFI of bit 0 of `reg` into bit 0 (FLAG_BIT_C) of the
emulated-flags register. -/
def store_carry_reg (reg : Nat) (s : S) : S :=
  s.bfiReg FLAGS_REG reg 0 1

/-- store_carry: record the new carry-state (LOGICAL when inverted,
CANONICAL otherwise), CSET the scratch register from the native carry
(inverted uses the complement), and insert it into emulated-flags bit 0. -/
def store_carry (inverted : Bool) (s : S) : S :=
  let s := { s with carry := if inverted then CarryState.LOGICAL else CarryState.CANONICAL }
  let s := s.cset SCRATCH_REG1 (if inverted then !s.c else s.c)
  store_carry_reg SCRATCH_REG1 s

/-- load_carry: restore the native C flag from emulated-flags bit 0
(optionally complemented), skipped when the tracked carry-state already
has the desired polarity. -/
def load_carry (inverted : Bool) (s : S) : S :=
  let desired := if inverted then CarryState.LOGICAL else CarryState.CANONICAL
  if desired ≠ s.carry then
    let s := { s with carry := desired }
    let s := s.setX SCRATCH_REG1 s.nzcvVal
    let s := s.bfiReg SCRATCH_REG1 FLAGS_REG 29 1
    let s := if inverted then s.setX SCRATCH_REG1 (s.getX SCRATCH_REG1 ^^^ 2 ^ 29) else s
    s.msrNZCV (s.getX SCRATCH_REG1)
  else s

/-- store_unordered: CSET each of PL, NE, CS, VS, AND them into
SCRATCH_REG1, then BFI SCRATCH_REG2 (the last CSET) into emulated-flags
bit 4. -/
def store_unordered (s : S) : S :=
  let s := s.cset SCRATCH_REG1 (!s.n)
  let s := s.cset SCRATCH_REG2 (!s.z)
  let s := s.andOp 8 SCRATCH_REG1 (s.getX SCRATCH_REG1) (s.getX SCRATCH_REG2)
  let s := s.cset SCRATCH_REG2 s.c
  let s := s.andOp 8 SCRATCH_REG1 (s.getX SCRATCH_REG1) (s.getX SCRATCH_REG2)
  let s := s.cset SCRATCH_REG2 s.v
  let s := s.andOp 8 SCRATCH_REG1 (s.getX SCRATCH_REG1) (s.getX SCRATCH_REG2)
  s.bfiReg FLAGS_REG SCRATCH_REG2 4 1

/-- Wrapping subtraction value at `bits` bits (the value computed by a
SUB instruction). -/
def subVal (bits a b : Nat) : Nat :=
  (a % 2 ^ bits + (2 ^ bits - b % 2 ^ bits)) % 2 ^ bits

/-- calculate_carry_shift_left (variable shift count): carry-state is
poisoned; zero count stores a zero carry, otherwise the bit shifted past
the top, ((value << (count - 1)) >> maxBits) & 1, computed as
value >> (maxBits + 1 - count). -/
def calculate_carry_shift_left (w reg shift maxBits : Nat) (s : S) : S :=
  let s := { s with carry := CarryState.POISON }
  if s.getR w shift ≠ 0 then
    let s := s.setR w SCRATCH_REG1 (maxBits + 1)
    let s := s.setR w SCRATCH_REG1 (subVal (w * 8) (s.getR w SCRATCH_REG1) (s.getR w shift))
    let s := s.setR w SCRATCH_REG1 (shiftVal .lsr (w * 8) (s.getR w reg) (s.getR w SCRATCH_REG1))
    store_carry_reg SCRATCH_REG1 s
  else
    store_carry_reg 31 s

/-- calculate_carry_shift_left_imm. -/
def calculate_carry_shift_left_imm (w reg sh maxBits : Nat) (s : S) : S :=
  let s := { s with carry := CarryState.POISON }
  if sh = 0 then
    store_carry_reg 31 s
  else
    let s := s.setR w SCRATCH_REG1 (shiftVal .lsr (w * 8) (s.getR w reg) (maxBits + 1 - sh))
    store_carry_reg SCRATCH_REG1 s

/-- calculate_carry_shift_right (variable shift count): zero count stores
a zero carry, otherwise (value >> (count - 1)) & 1. -/
def calculate_carry_shift_right (w reg shift : Nat) (s : S) : S :=
  let s := { s with carry := CarryState.POISON }
  if s.getR w shift ≠ 0 then
    let s := s.setR w SCRATCH_REG1 (subVal (w * 8) (s.getR w shift) 1)
    let s := s.setR w SCRATCH_REG1 (shiftVal .lsr (w * 8) (s.getR w reg) (s.getR w SCRATCH_REG1))
    store_carry_reg SCRATCH_REG1 s
  else
    store_carry_reg 31 s

/-- calculate_carry_shift_right_imm. -/
def calculate_carry_shift_right_imm (w reg sh : Nat) (s : S) : S :=
  let s := { s with carry := CarryState.POISON }
  if sh = 0 then
    store_carry_reg 31 s
  else
    let s := s.setR w SCRATCH_REG1 (shiftVal .lsr (w * 8) (s.getR w reg) (sh - 1))
    store_carry_reg SCRATCH_REG1 s

/-! ## Immediate shape predicates -/
/-- is_valid_immediate_addsub: a 12-bit unsigned value, optionally
left-shifted by 12 bits. -/
def is_valid_immediate_addsub (v : Nat) : Bool :=
  (v &&& bmask 12 == v) || (v &&& (bmask 12 <<< 12) == v)

/-- is_valid_immediate: value representable in `bits` bits. -/
def is_valid_immediate (v bits : Nat) : Bool := v < 2 ^ bits

/-! ## Integer opcode generators (runtime semantics)

Each function computes the machine state produced by executing the code
the corresponding drcbe_arm64::op_* generator emits for the given
instruction, one binding per emitted instruction.  `fl` is the UML
flag-update mask of the instruction. -/
/-- op_cmp: compare and update flags; the flag mask only appears in the
generator as an assertion, so the emitted code does not depend on it. -/
def op_cmp (w : Nat) (src1p src2p : BeParam) (s : S) : S :=
  let src1 := src1p.selectReg TEMP_REG1
  let s := mov_reg_param w src1 src1p s
  let s :=
    match src2p with
    | .imm v =>
        if is_valid_immediate_addsub v then
          if v = 0 then s.subOp true w 31 (s.getR w src1) (s.getR w 31) true
          else s.subOp true w 31 (s.getR w src1) v true
        else
          let src2 := BeParam.selectReg (.imm v) TEMP_REG2
          let s := mov_reg_param w src2 (.imm v) s
          s.subOp true w 31 (s.getR w src1) (s.getR w src2) true
    | p2 =>
        let src2 := p2.selectReg TEMP_REG2
        let s := mov_reg_param w src2 p2 s
        s.subOp true w 31 (s.getR w src1) (s.getR w src2) true
  store_carry true s

/-- op_add / op_addc (CarryIn selects ADC forms; the flag mask selects
the flag-setting opcode variants and the final store_carry). -/
def op_add (carryIn : Bool) (w fl : Nat) (dstp src1p src2p : BeParam) (s : S) : S :=
  let setf := fl ≠ 0
  let output := dstp.selectReg TEMP_REG3
  let s := if carryIn then load_carry false s else s
  let cin := fun (t : S) => carryIn && t.c
  let s :=
    if src1p.isImmValue 0 then
      if src2p.isImmValue 0 then
        if carryIn then
          let s := s.addOp setf w output (s.getR w 31) (s.getR w 31) (cin s)
          mov_param_reg w dstp output s
        else
          let s := mov_param_reg w dstp 31 s
          s.addOp setf w 31 (s.getR w 31) (s.getR w 31) (cin s)
      else if !carryIn && src2p.isImm &&
          is_valid_immediate_addsub (src2p.immValue) then
        let s := s.movOp w output 0
        let s := s.addOp setf w output (s.getR w output) src2p.immValue (cin s)
        mov_param_reg w dstp output s
      else if !carryIn && src2p.isImm && is_valid_immediate src2p.immValue 24 then
        let s := s.movOp w output (src2p.immValue &&& bmask 12)
        let s := s.addOp setf w output (s.getR w output)
          (src2p.immValue &&& (bmask 12 <<< 12)) (cin s)
        mov_param_reg w dstp output s
      else
        let src := src2p.selectReg output
        let s := mov_reg_param w src src2p s
        let s := s.addOp setf w output (s.getR w src) (s.getR w 31) (cin s)
        mov_param_reg w dstp output s
    else if src2p.isImmValue 0 then
      if !carryIn && src1p.isImm && is_valid_immediate_addsub src1p.immValue then
        let s := s.movOp w output 0
        let s := s.addOp setf w output (s.getR w output) src1p.immValue (cin s)
        mov_param_reg w dstp output s
      else if !carryIn && src1p.isImm && is_valid_immediate src1p.immValue 24 then
        let s := s.movOp w output (src1p.immValue &&& bmask 12)
        let s := s.addOp setf w output (s.getR w output)
          (src1p.immValue &&& (bmask 12 <<< 12)) (cin s)
        mov_param_reg w dstp output s
      else
        let src := src1p.selectReg output
        let s := mov_reg_param w src src1p s
        let s := s.addOp setf w output (s.getR w src) (s.getR w 31) (cin s)
        mov_param_reg w dstp output s
    else if !carryIn && src1p.isImm && is_valid_immediate_addsub src1p.immValue then
      let src := src2p.selectReg output
      let s := mov_reg_param w src src2p s
      let s := s.addOp setf w output (s.getR w src) src1p.immValue (cin s)
      mov_param_reg w dstp output s
    else if !carryIn && src2p.isImm && is_valid_immediate_addsub src2p.immValue then
      let src := src1p.selectReg output
      let s := mov_reg_param w src src1p s
      let s := s.addOp setf w output (s.getR w src) src2p.immValue (cin s)
      mov_param_reg w dstp output s
    else if !carryIn && fl = 0 && src1p.isImm && is_valid_immediate src1p.immValue 24 then
      let src := src2p.selectReg output
      let s := mov_reg_param w src src2p s
      let s := s.addOp setf w output (s.getR w src) (src1p.immValue &&& bmask 12) (cin s)
      let s := s.addOp setf w output (s.getR w output)
        (src1p.immValue &&& (bmask 12 <<< 12)) (cin s)
      mov_param_reg w dstp output s
    else if !carryIn && fl = 0 && src2p.isImm && is_valid_immediate src2p.immValue 24 then
      let src := src1p.selectReg output
      let s := mov_reg_param w src src1p s
      let s := s.addOp setf w output (s.getR w src) (src2p.immValue &&& bmask 12) (cin s)
      let s := s.addOp setf w output (s.getR w output)
        (src2p.immValue &&& (bmask 12 <<< 12)) (cin s)
      mov_param_reg w dstp output s
    else
      let src1 := src1p.selectReg TEMP_REG1
      let src2 := src2p.selectReg TEMP_REG2
      let s := mov_reg_param w src1 src1p s
      let s := mov_reg_param w src2 src2p s
      let s := s.addOp setf w output (s.getR w src1) (s.getR w src2) (cin s)
      mov_param_reg w dstp output s
  if fl ≠ 0 then store_carry false s else s

/-- op_sub / op_subb.  The non-borrow forms use carry-in 1 (SUBS); the
borrow forms use the native C flag after load_carry true. -/
def op_sub (carryIn : Bool) (w fl : Nat) (dstp src1p src2p : BeParam) (s : S) : S :=
  let setf := fl ≠ 0
  let s := if carryIn then load_carry true s else s
  let output := dstp.selectReg TEMP_REG3
  let cin := fun (t : S) => if carryIn then t.c else true
  let s :=
    if src2p.isImmValue 0 then
      if src1p.isImmValue 0 then
        if carryIn then
          let s := s.subOp setf w output (s.getR w 31) (s.getR w 31) (cin s)
          mov_param_reg w dstp output s
        else
          let s := mov_param_reg w dstp 31 s
          s.subOp setf w 31 (s.getR w 31) (s.getR w 31) (cin s)
      else
        let src := src1p.selectReg output
        let s := mov_reg_param w src src1p s
        if carryIn then
          let s := s.subOp setf w output (s.getR w src) (s.getR w 31) (cin s)
          mov_param_reg w dstp output s
        else
          let s := mov_param_reg w dstp src s
          s.subOp setf w 31 (s.getR w src) (s.getR w 31) (cin s)
    else if !carryIn && src2p.isImm && is_valid_immediate_addsub src2p.immValue then
      let src := src1p.selectReg output
      let s := mov_reg_param w src src1p s
      let s := s.subOp setf w output (s.getR w src) src2p.immValue (cin s)
      mov_param_reg w dstp output s
    else if !carryIn && (fl = 0 || src1p.isImmValue 0) && src2p.isImm &&
        is_valid_immediate src2p.immValue 24 then
      let src := src1p.selectReg output
      let s := mov_reg_param w src src1p s
      let s := s.subOp setf w output (s.getR w src) (src2p.immValue &&& bmask 12) (cin s)
      let s := s.subOp setf w output (s.getR w output)
        (src2p.immValue &&& (bmask 12 <<< 12)) (cin s)
      mov_param_reg w dstp output s
    else
      let src1 := src1p.selectReg TEMP_REG1
      let src2 := src2p.selectReg TEMP_REG2
      let s := mov_reg_param w src1 src1p s
      let s := mov_reg_param w src2 src2p s
      let s := s.subOp setf w output (s.getR w src1) (s.getR w src2) (cin s)
      mov_param_reg w dstp output s
  if fl ≠ 0 then store_carry true s else s

/-- The destination-register reuse test shared by op_shift and op_rol:
write straight to the destination register when it exists and is not one
of the source registers. -/
def canUseDstReg (dstp src1p src2p : BeParam) : Bool :=
  match dstp with
  | .intReg d =>
      (match src1p with | .intReg i => i ≠ d | _ => true) &&
      (match src2p with | .intReg i => i ≠ d | _ => true)
  | _ => false

/-- op_shift, instantiated at SHL (lsl), SHR (lsr), SAR (asr) and
ROR (ror).  The carry-out is computed unconditionally; the trailing TST
only when the instruction requests flags. -/
def op_shift (k : ShiftKind) (w fl : Nat) (dstp src1p src2p : BeParam) (s : S) : S :=
  let maxBits := w * 8 - 1
  let src := src1p.selectReg TEMP_REG1
  let shift := src2p.selectReg TEMP_REG2
  let dst := if canUseDstReg dstp src1p src2p then dstp.selectReg TEMP_REG3 else TEMP_REG3
  let scratch := FUNC_SCRATCH_REG
  let s := mov_reg_param w src src1p s
  let s :=
    if src2p.isImm && is_valid_immediate src2p.immValue (if w = 8 then 5 else 4) then
      let sh := src2p.immValue % (w * 8)
      let s := s.setR w dst (shiftVal k (w * 8) (s.getR w src) sh)
      if k = .ror || k = .lsr || k = .asr then calculate_carry_shift_right_imm w src sh s
      else calculate_carry_shift_left_imm w src sh maxBits s
    else
      let s := mov_reg_param w shift src2p s
      let s := s.setR w scratch (s.getR w shift &&& (w * 8 - 1))
      let s := s.setR w dst (shiftVal k (w * 8) (s.getR w src) (s.getR w scratch))
      if k = .ror || k = .lsr || k = .asr then calculate_carry_shift_right w src scratch s
      else calculate_carry_shift_left w src scratch maxBits s
  let s :=
    if fl ≠ 0 then
      let s := s.tstOp w (s.getR w dst) (s.getR w dst)
      { s with carry := CarryState.POISON }
    else s
  mov_param_reg w dstp dst s

/-- op_rol: a left rotate lowered to ROR by the complementary count, with
the left-shift carry-out calculation. -/
def op_rol (w fl : Nat) (dstp src1p src2p : BeParam) (s : S) : S :=
  let maxBits := w * 8 - 1
  let param := src1p.selectReg TEMP_REG1
  let shift := src2p.selectReg TEMP_REG2
  let output := if canUseDstReg dstp src1p src2p then dstp.selectReg TEMP_REG3 else TEMP_REG3
  let scratch2 := FUNC_SCRATCH_REG
  let s := mov_reg_param w param src1p s
  let s :=
    if src2p.isImm then
      let sh := src2p.immValue % (w * 8)
      let sh2 := (w * 8 - sh) % (w * 8)
      let s :=
        if sh2 = 0 then
          if output ≠ param then s.movOp w output (s.getR w param) else s
        else
          s.setR w output (shiftVal .ror (w * 8) (s.getR w param) sh2)
      calculate_carry_shift_left_imm w param sh maxBits s
    else
      let s := mov_reg_param w shift src2p s
      let s := s.setR w SCRATCH_REG1 (w * 8)
      let s := s.setR w scratch2 (s.getR w shift &&& maxBits)
      let s := s.setR w SCRATCH_REG1 (subVal (w * 8) (s.getR w SCRATCH_REG1) (s.getR w scratch2))
      let s := s.setR w output (shiftVal .ror (w * 8) (s.getR w param) (s.getR w SCRATCH_REG1))
      calculate_carry_shift_left w param scratch2 maxBits s
  let s :=
    if fl ≠ 0 then
      let s := s.tstOp w (s.getR w output) (s.getR w output)
      { s with carry := CarryState.POISON }
    else s
  mov_param_reg w dstp output s

/-- op_div, instantiated at UDIV and SDIV by `sdiv`.  A zero divisor
(detected statically for the immediate 0, or at runtime by CBZ) sets only
the native V flag and performs no destination write; otherwise the
quotient and optionally the remainder (via MSUB) are stored. -/
def op_div (sdiv : Bool) (w fl : Nat) (dstp edstp src1p src2p : BeParam) (s : S) : S :=
  let compute_rem := !(dstp.peq edstp)
  let s :=
    if !src2p.isImm || (src2p.isImm && !src2p.isImmValue 0) then
      let s := mov_reg_param w TEMP_REG2 src2p s
      if s.getR w TEMP_REG2 = 0 then
        let s := s.setX SCRATCH_REG1 (1 <<< 28)
        s.msrNZCV (s.getX SCRATCH_REG1)
      else
        let s := mov_reg_param w TEMP_REG1 src1p s
        let s := s.setR w TEMP_REG3
          (if sdiv then sdivVal (w * 8) (s.getR w TEMP_REG1) (s.getR w TEMP_REG2)
           else udivVal (w * 8) (s.getR w TEMP_REG1) (s.getR w TEMP_REG2))
        let s := mov_param_reg w dstp TEMP_REG3 s
        let s :=
          if compute_rem then
            let s := s.setR w TEMP_REG2
              (msubVal (w * 8) (s.getR w TEMP_REG3) (s.getR w TEMP_REG2) (s.getR w TEMP_REG1))
            mov_param_reg w edstp TEMP_REG2 s
          else s
        if fl ≠ 0 then s.tstOp w (s.getR w TEMP_REG3) (s.getR w TEMP_REG3) else s
    else
      let s := s.setX SCRATCH_REG1 (1 <<< 28)
      s.msrNZCV (s.getX SCRATCH_REG1)
  { s with carry := CarryState.POISON }

/-- op_getflgs: assemble the requested UML flags into the destination
(C and U from the emulated-flags register, V, Z, S from the native
flags); an empty selection stores zero. -/
def op_getflgs (mask : Nat) (dstp : BeParam) (s : S) : S :=
  let dst := dstp.selectReg TEMP_REG1
  let hasC := mask &&& FLAG_C ≠ 0
  let hasV := mask &&& FLAG_V ≠ 0
  let hasZ := mask &&& FLAG_Z ≠ 0
  let hasS := mask &&& FLAG_S ≠ 0
  let hasU := mask &&& FLAG_U ≠ 0
  let s := if hasC then s.andOp 8 dst (s.getX FLAGS_REG) FLAG_C else s
  let s :=
    if hasV then
      if !hasC then
        let s := s.cset dst s.v
        s.setX dst (shiftVal .lsl 64 (s.getX dst) 1)
      else
        let s := s.cset SCRATCH_REG1 s.v
        s.orrShifted dst dst SCRATCH_REG1 1
    else s
  let s :=
    if hasZ then
      if !hasC && !hasV then
        let s := s.cset dst s.z
        s.setX dst (shiftVal .lsl 64 (s.getX dst) 2)
      else
        let s := s.cset SCRATCH_REG1 s.z
        s.orrShifted dst dst SCRATCH_REG1 2
    else s
  let s :=
    if hasS then
      if !hasC && !hasV && !hasZ then
        let s := s.cset dst s.n
        s.setX dst (shiftVal .lsl 64 (s.getX dst) 3)
      else
        let s := s.cset SCRATCH_REG1 s.n
        s.orrShifted dst dst SCRATCH_REG1 3
    else s
  let s :=
    if hasU then
      if !hasC && !hasV && !hasZ && !hasS then
        s.andOp 8 dst (s.getX FLAGS_REG) FLAG_U
      else
        let s := s.andOp 8 SCRATCH_REG1 (s.getX FLAGS_REG) FLAG_U
        s.orrShifted dst dst SCRATCH_REG1 0
    else s
  let s := if !hasC && !hasV && !hasZ && !hasS && !hasU then s.setX dst (s.getX 31) else s
  mov_param_reg 4 dstp dst s

/-- op_exit: the value the entry trampoline returns, the low 32 bits of
REG_PARAM1 loaded from the EXIT operand. -/
def op_exit_value (retp : BeParam) (s : S) : Nat :=
  let s := mov_reg_param 4 REG_PARAM1 retp s
  s.getR 4 REG_PARAM1

/-- The flag-updating tail of op_fcmp, executed on the native flags the
FCMP instruction produced: store_carry inverted, then store_unordered. -/
def op_fcmp_tail (s : S) : S :=
  store_unordered (store_carry true s)

/-! ## Calls out to the host

A host function is opaque to the generator: it may alter registers,
memory and the native flags, but not the fields owned by the translator
(the carry-state tracking and the persisted near-state word, which only
generated code stores to). -/
def HostCall : Type :=
  (Nat → Nat) → (Nat → Nat) → (Bool × Bool × Bool × Bool) →
    ((Nat → Nat) × (Nat → Nat) × (Bool × Bool × Bool × Bool))

/-- BLR into an opaque host function. -/
def applyHost (f : HostCall) (s : S) : S :=
  let r := f s.regs s.mem (s.n, s.z, s.c, s.v)
  { s with regs := r.1, mem := r.2.1,
           n := r.2.2.1, z := r.2.2.2.1, c := r.2.2.2.2.1, v := r.2.2.2.2.2 }

/-- op_callc: persist emulated-flags to the near state, call the C
function, reload emulated-flags; the carry-state becomes POISON
regardless of the condition. -/
def op_callc (condMet : Bool) (f : HostCall) (paramAddr funcAddr : Nat) (s : S) : S :=
  let s1 :=
    if condMet then
      let s := { s with nearFlags := s.getX FLAGS_REG % 2 ^ 32 }
      let s := s.setX REG_PARAM1 paramAddr
      let s := s.setX TEMP_REG1 funcAddr
      let s := applyHost f s
      s.setR 4 FLAGS_REG s.nearFlags
    else s
  { s1 with carry := CarryState.POISON }

/-- op_read, slow accessor path: address into REG_PARAM2, call the
resolved read function, destination from REG_PARAM1; the carry-state is
poisoned at the head of the generator. -/
def op_read (f : HostCall) (w : Nat) (dstp addrp : BeParam) (s : S) : S :=
  let s := { s with carry := CarryState.POISON }
  let s := mov_reg_param 4 REG_PARAM2 addrp s
  let s := applyHost f s
  mov_param_reg w dstp REG_PARAM1 s

/-- op_debug: code is emitted only when the machine debug flag is
enabled; the emitted code tests bit 1 of the debug-flags word at runtime
and calls the instruction hook. -/
def op_debug (debugEnabled : Bool) (debugFlagsWord : Nat) (f : HostCall)
    (hookObj : Nat) (pcp : BeParam) (s : S) : S :=
  if debugEnabled then
    let s := { s with carry := CarryState.POISON }
    let s := s.setR 4 TEMP_REG1 debugFlagsWord
    if (s.getR 4 TEMP_REG1).testBit 1 then
      let s := s.setX REG_PARAM1 hookObj
      let s := mov_reg_param 4 REG_PARAM2 pcp s
      applyHost f s
    else s
  else s

/-! ## HASHJMP -/
/-- Modelled from the spec: the collaborator drc_hash_table (drcbeut.cpp,
not part of this repository).  A two-level lookup: level-one and
level-two shift/bit-count are supplied by the collaborator; set_codeptr
registers a code pointer under (mode, level-1 index, level-2 index), and
unregistered entries read back as the default code pointer, which reset()
points at the no-code stub. -/
structure HashTable where
  l1shift : Nat
  l1bits : Nat
  l2shift : Nat
  l2bits : Nat
  modePopulated : Nat → Bool
  entries : Nat → Nat → Nat → Option Nat

/-- Modelled from the spec: reading one entry of the two-level table,
with the default (no-code) pointer for unregistered slots. -/
def HashTable.entry (ht : HashTable) (nocode mode l1 l2 : Nat) : Nat :=
  (ht.entries mode l1 l2).getD nocode

/-- The registered pointer the table holds for (mode, pc), if any. -/
def HashTable.lookup (ht : HashTable) (mode pc : Nat) : Option Nat :=
  ht.entries mode (pc >>> ht.l1shift &&& bmask ht.l1bits)
    (pc >>> ht.l2shift &&& bmask ht.l2bits)

/-- UBFX Xd, Xn, lsb, width. -/
def S.ubfx (rd rn lsb width : Nat) (s : S) : S :=
  s.setX rd (s.getX rn >>> lsb &&& bmask width)

/-- The runtime effect of mov_mem_param(a, 4, &m_state.exp, pcp): store
the 32-bit parameter value into the exception-parameter slot.  The slot
itself is modelled as a state field; nonzero immediates and memory
sources go through SCRATCH_REG2 exactly as the helper emits them. -/
def mov_exp_param (pcp : BeParam) (s : S) : S :=
  match pcp with
  | .imm v =>
      if v = 0 then { s with exp := 0 }
      else
        let s := s.setR 4 SCRATCH_REG2 (v % 2 ^ 32)
        { s with exp := s.getR 4 SCRATCH_REG2 }
  | .intReg i => { s with exp := s.getR 4 i }
  | .mem a cold =>
      let s :=
        if hostBigEndian ∧ cold then s.setR 4 SCRATCH_REG2 (readMem s.mem (a + 4) 4)
        else s.setR 4 SCRATCH_REG2 (readMem s.mem a 4)
      { s with exp := s.getR 4 SCRATCH_REG2 }

/-- The table-walk phase of op_hashjmp: the four generator paths,
returning the resolved code pointer (landed in TEMP_REG1) and the state
after the emitted loads. -/
def op_hashjmp_lookup (ht : HashTable) (nocode : Nat)
    (modep pcp : BeParam) (s : S) : Nat × S :=
  if modep.isImm && ht.modePopulated modep.immValue then
    match pcp with
    | .imm v =>
        let l1val := v >>> ht.l1shift &&& bmask ht.l1bits
        let l2val := v >>> ht.l2shift &&& bmask ht.l2bits
        let e := ht.entry nocode modep.immValue l1val l2val
        (e, s.setX TEMP_REG1 e)
    | _ =>
        let s := mov_reg_param 4 TEMP_REG2 pcp s
        let s := s.ubfx TEMP_REG3 TEMP_REG2 ht.l1shift ht.l1bits
        let s := s.ubfx TEMP_REG2 TEMP_REG2 ht.l2shift ht.l2bits
        let e := ht.entry nocode modep.immValue (s.getX TEMP_REG3) (s.getX TEMP_REG2)
        (e, s.setX TEMP_REG1 e)
  else
    let r :=
      if modep.isImm then (modep.immValue, s)
      else
        let mode := modep.selectReg TEMP_REG1
        let s := mov_reg_param 4 mode modep s
        (s.getX mode, s)
    let modeVal := r.1
    let s := r.2
    match pcp with
    | .imm v =>
        let l1val := v >>> ht.l1shift &&& bmask ht.l1bits
        let l2val := v >>> ht.l2shift &&& bmask ht.l2bits
        let e := ht.entry nocode modeVal l1val l2val
        (e, s.setX TEMP_REG1 e)
    | _ =>
        let pc := pcp.selectReg TEMP_REG2
        let s := mov_reg_param 4 pc pcp s
        let s := s.ubfx TEMP_REG3 pc ht.l1shift ht.l1bits
        let s := s.ubfx TEMP_REG2 pc ht.l2shift ht.l2bits
        let e := ht.entry nocode modeVal (s.getX TEMP_REG3) (s.getX TEMP_REG2)
        (e, s.setX TEMP_REG1 e)

/-- op_hashjmp: reset SP to the frame pointer, walk the two-level table,
and indirect-branch to the result.  The no-code stub branches straight
back (reset() emits it as `br REG_PARAM1` and sets it as the table
default), after which the miss code stores pc into m_state.exp and calls
the exception handle; `exhCode` is the handle code pointer and `labAddr`
the address of the miss label materialized into REG_PARAM1.  Returns the
code pointer that finally receives control, and the machine state. -/
def op_hashjmp (ht : HashTable) (nocode exhCode labAddr : Nat)
    (modep pcp : BeParam) (s : S) : Nat × S :=
  let s := { s with sp := s.fp }
  let r := op_hashjmp_lookup ht nocode modep pcp s
  let tgt := r.1
  let s := r.2.setX REG_PARAM1 labAddr
  if tgt = nocode then
    let s := mov_exp_param pcp s
    (exhCode, { s with carry := CarryState.POISON })
  else
    (tgt, { s with carry := CarryState.POISON })

/-! ## The immediate materializer as emitted-instruction descriptors

For the claims about which host instructions get_imm_absolute and
get_imm_relative choose, the generators are translated into functions
producing a descriptor list, one entry per emitted instruction. -/
/-- Bit length by structural recursion on a fuel bound (so that the
kernel can evaluate it). -/
def bitLenF : Nat → Nat → Nat
  | 0, _ => 0
  | f + 1, x => if x = 0 then 0 else bitLenF f (x / 2) + 1

/-- count_leading_zeros_64 (returns 64 for zero). -/
def clz64 (x : Nat) : Nat := 64 - bitLenF 64 (x % 2 ^ 64)

/-- The width-search loop of is_valid_immediate_mask: double the width
while the value is not a repetition of its low `width` bits.  The C++
loop doubles width from 2 and terminates before exceeding 64, so fuel 6
covers every iteration it can make. -/
def maskLoopF : Nat → Nat → Nat → Nat → Nat → Nat
  | 0, _, _, width, _ => width
  | fuel + 1, val, bits, width, mask =>
      if width < bits ∧ val &&& mask ≠ val >>> width then
        maskLoopF fuel val bits (width <<< 1) (mask >>> width)
      else width

/-- is_valid_immediate_mask: the value is a repeating power-of-two-sized
group whose set bits are contiguous (a bitmask immediate). -/
def is_valid_immediate_mask (val : Nat) (bytes : Nat) : Bool :=
  let bits := bytes * 8
  if val = 0 || val ≥ bmask bits then false
  else
    let width := maskLoopF 6 val bits 2 (bmask (bits - 2))
    let lz := clz64 (val &&& bmask width)
    let invleftaligned := bmask 64 ^^^ (val <<< lz) % 2 ^ 64
    decide (invleftaligned &&& (invleftaligned + 1) % 2 ^ 64 = 0)

def LSL0_MASK : Nat := 0xffff

def LSL16_MASK : Nat := 0xffff0000

def LSL32_MASK : Nat := 0xffff00000000

def LSL48_MASK : Nat := 0xffff000000000000

/-- is_simple_mov_immediate: materializable by a single MOVZ / MOVN /
bitmask-immediate ORR. -/
def is_simple_mov_immediate (val : Nat) (bytes : Nat) : Bool :=
  let v := val % 2 ^ 64
  let nv := bmask 64 ^^^ v
  (v &&& LSL0_MASK == v) || (v &&& LSL16_MASK == v) ||
  (v &&& LSL32_MASK == v) || (v &&& LSL48_MASK == v) ||
  (nv &&& LSL0_MASK == nv) || (nv &&& LSL16_MASK == nv) ||
  (nv &&& LSL32_MASK == nv) || (nv &&& LSL48_MASK == nv) ||
  (decide (v < 2 ^ 32) && ((v &&& LSL0_MASK == LSL0_MASK) || (v &&& LSL16_MASK == LSL16_MASK))) ||
  is_valid_immediate_mask v bytes

/-- The instruction shapes the immediate materializers can emit. -/
inductive AImm where
  | movSingle
  | adr
  | addBase
  | subBase
  | adrp
  | addPageOffset
  | movMulti
deriving DecidableEq, Repr

/-- get_imm_absolute: single move, PC-relative ADR, page-relative ADRP
(plus optional page-offset ADD), or the multi-move fallback.  No branch
uses the base register. -/
def get_imm_absolute (isX : Bool) (codeoffs val : Nat) : List AImm :=
  if is_simple_mov_immediate val (if isX then 8 else 4) then [.movSingle]
  else if isX && is_valid_immediate_mask val 4 then [.movSingle]
  else
    let reloffs : Int := (val : Int) - codeoffs
    if signedFits reloffs 21 then [.adr]
    else
      let pagebase : Nat := codeoffs / 2 ^ 12 * 2 ^ 12
      let pagerel : Int := (val : Int) - pagebase
      if signedFits pagerel (21 + 12) then
        let pageoffs := val &&& bmask 12
        if pageoffs ≠ 0 then [.adrp, .addPageOffset] else [.adrp]
      else [.movMulti]

/-- get_imm_relative: like the absolute variant but with a base-relative
ADD/SUB rung between the ADR and ADRP rungs (emit_add_optimized for a
positive difference, emit_sub_optimized for a negative one). -/
def get_imm_relative (isX : Bool) (codeoffs baseptr val : Nat) : List AImm :=
  if is_simple_mov_immediate val (if isX then 8 else 4) then [.movSingle]
  else if isX && is_valid_immediate_mask val 4 then [.movSingle]
  else
    let reloffs : Int := (val : Int) - codeoffs
    if signedFits reloffs 21 then [.adr]
    else
      let diff : Int := (val : Int) - baseptr
      if 0 < diff ∧ is_valid_immediate_addsub diff.toNat then [.addBase]
      else if diff < 0 ∧ is_valid_immediate_addsub (-diff).toNat then [.subBase]
      else
        let pagebase : Nat := codeoffs / 2 ^ 12 * 2 ^ 12
        let pagerel : Int := (val : Int) - pagebase
        if signedFits pagerel (21 + 12) then
          let pageoffs := val &&& bmask 12
          if pageoffs ≠ 0 then [.adrp, .addPageOffset] else [.adrp]
        else [.movMulti]

/-! ## The memory-source load of mov_reg_param (descriptor form) -/
/-- A scalar load: element size in bytes and the address read. -/
structure LoadDesc where
  bytes : Nat
  addr : Nat
deriving DecidableEq, Repr

/-- The load mov_reg_param emits for a memory-typed source parameter
(src.is_memory() branch): on a big-endian host a 4-byte cold-register
load reads the element at slot + 4; every other case reads `regsize`
bytes at the slot base. -/
def mov_reg_param_load (be : Bool) (regsize a : Nat) (cold : Bool) : LoadDesc :=
  if be ∧ regsize = 4 ∧ cold then ⟨4, a + 4⟩ else ⟨regsize, a⟩

/-! ## The code cache commit (emit / generate) -/
/-- Modelled from the spec: the DRC cache collaborator (a bump allocator
for executable memory; drccache.cpp is not part of this repository).
begin_codegen returns the current allocation top, or null when the
requested size does not fit. -/
structure DrcCache where
  top : Nat
  limit : Nat
  bytes : Nat → Nat

/-- Modelled from the spec: drc_cache::begin_codegen. -/
def DrcCache.begin_codegen (c : DrcCache) (sz : Nat) : Option Nat :=
  if c.top + sz ≤ c.limit then some c.top else none

/-- CodeHolder::copyFlattenedData: the assembled bytes land at the base
address. -/
def copyFlattened (mem : Nat → Nat) (base : Nat) (code : List Nat) : Nat → Nat :=
  fun i => if base ≤ i ∧ i < base + code.length then code.getD (i - base) 0 else mem i

/-- drcbe_arm64::emit: test for room via begin_codegen; on null return 0
with the cache untouched, otherwise copy the flattened code and advance
the cache top by alignment plus code size. -/
def emit (c : DrcCache) (baseAddress : Nat) (code : List Nat) : Nat × DrcCache :=
  let alignment := baseAddress - c.top
  let code_size := code.length
  match c.begin_codegen (alignment + code_size) with
  | none => (0, c)
  | some _ =>
      let c2 := { c with bytes := copyFlattened c.bytes baseAddress code }
      (code_size, { c2 with top := c2.top + alignment + code_size })

/-- The commit tail of drcbe_arm64::generate: `if (!emit(ch))
block.abort();` — the returned flag is whether the block was told to
abort. -/
def generate_commit (c : DrcCache) (baseAddress : Nat) (code : List Nat) :
    Bool × DrcCache :=
  let r := emit c baseAddress code
  (r.1 == 0, r.2)

/-- The four NZCV settings an A64 FCMP can produce: unordered (0011),
equal (0110), less than (1000), greater than (0010), as (n, z, c, v). -/
def fcmpOutcomes : List (Bool × Bool × Bool × Bool) :=
  [(false, false, true, true), (false, true, true, false),
   (true, false, false, false), (false, false, true, false)]

/-- A concrete machine state for witnesses: all registers, memory and
flags clear. -/
def initState : S :=
  { regs := fun _ => 0
    n := false
    z := false
    c := false
    v := false
    mem := fun _ => 0
    carry := CarryState.POISON
    nearFlags := 0
    exp := 0
    sp := 0
    fp := 0 }

/-- A parameter whose 32-bit value has no stray upper bits in its host
register (UML mode and PC values are 32-bit by contract; the generator
indexes the hash table with the full 64-bit register). -/
def param32 (s : S) : BeParam → Prop
  | .imm v => v < 2 ^ 32
  | .intReg i => s.getX i < 2 ^ 32
  | .mem _ _ => True

/-- An everywhere-empty hash table: no mode populated, no entry set. -/
def htW : HashTable :=
  { l1shift := 8
    l1bits := 8
    l2shift := 0
    l2bits := 8
    modePopulated := fun _ => false
    entries := fun _ _ _ => none }

/-- Separation of two destination parameters: only the memory/memory
combination constrains anything (the stored byte ranges must not
overlap; a cold register takes the full 8-byte slot). -/
def memDisjoint (w : Nat) : BeParam → BeParam → Prop
  | .mem a c, .mem a2 c2 =>
      a + (if c then 8 else w) ≤ a2 ∨ a2 + (if c2 then 8 else w) ≤ a
  | _, _ => True

/-- The UML-visible flag state as observable through GETFLGS: emulated C
(bit 0 of the emulated-flags register), native V, Z, N, and emulated U
(bit 4 of the emulated-flags register). -/
def visFlags (s : S) : Bool × Bool × Bool × Bool × Bool :=
  ((s.getX FLAGS_REG).testBit 0, s.v, s.z, s.n, (s.getX FLAGS_REG).testBit 4)

/-- The native condition flags together with the persisted U bit: the
part of the observable flag state that shifts and rotates leave alone. -/
def flagsU (s : S) : Bool × Bool × Bool × Bool × Bool :=
  (s.n, s.z, s.c, s.v, (s.getX FLAGS_REG).testBit 4)

/-- A start state with every register holding 1; in particular the
emulated-flags register has its C bit (bit 0) set. -/
def s1C : S :=
  { regs := fun _ => 1
    n := false
    z := false
    c := false
    v := false
    mem := fun _ => 0
    carry := CarryState.POISON
    nearFlags := 0
    exp := 0
    sp := 0
    fp := 0 }

theorem writeMem_outside (m : Nat → Nat) (a : Nat) (k v i : Nat)
    (h : i < a ∨ a + k ≤ i) : writeMem m a k v i = m i := by
  induction k generalizing m a v with
  | zero => rfl
  | succ k ih =>
      rw [writeMem, ih]
      · simp only [if_neg (by omega : ¬ i = a)]
      · omega

theorem readMem_congr (m₁ m₂ : Nat → Nat) (a k : Nat)
    (h : ∀ i, a ≤ i → i < a + k → m₁ i = m₂ i) :
    readMem m₁ a k = readMem m₂ a k := by
  induction k generalizing a with
  | zero => rfl
  | succ k ih =>
      rw [readMem, readMem, h a (by omega) (by omega), ih]
      intro i h1 h2
      exact h i (by omega) (by omega)

theorem readMem_writeMem_same (m : Nat → Nat) (a k v : Nat) :
    readMem (writeMem m a k v) a k = v % 2 ^ (8 * k) := by
  induction k generalizing m a v with
  | zero => simp [readMem, Nat.mod_one]
  | succ k ih =>
      rw [writeMem, readMem]
      rw [writeMem_outside _ _ _ _ _ (Or.inl (by omega))]
      simp only [if_pos trivial, Nat.mod_mod]
      rw [ih]
      have h256 : (2 : Nat) ^ (8 * (k + 1)) = 256 * 2 ^ (8 * k) := by
        rw [show 8 * (k + 1) = 8 + 8 * k by ring, pow_add]; norm_num
      rw [h256, Nat.mod_mul]

theorem readMem_writeMem_disjoint (m : Nat → Nat) (a k v b j : Nat)
    (h : a + k ≤ b ∨ b + j ≤ a) :
    readMem (writeMem m a k v) b j = readMem m b j := by
  refine readMem_congr _ _ _ _ (fun i h1 h2 => ?_)
  exact writeMem_outside _ _ _ _ _ (by omega)

theorem readMem_lt (m : Nat → Nat) (a k : Nat) : readMem m a k < 2 ^ (8 * k) := by
  induction k generalizing a with
  | zero => simp [readMem]
  | succ k ih =>
      rw [readMem]
      have h256 : (2 : Nat) ^ (8 * (k + 1)) = 256 * 2 ^ (8 * k) := by
        rw [show 8 * (k + 1) = 8 + 8 * k by ring, pow_add]; norm_num
      have := ih (a + 1)
      have : m a % 256 < 256 := Nat.mod_lt _ (by norm_num)
      omega

namespace BeParam

theorem selectReg_ne (p : BeParam) (d k : Nat) (hp : p.wf) (hd : d ≠ k)
    (hk : k < 19 ∨ 26 < k) : p.selectReg d ≠ k := by
  cases p with
  | intReg i => simp only [selectReg]; unfold wf at hp; omega
  | imm v => exact hd
  | mem a c => exact hd

end BeParam

namespace S

@[simp] theorem cset_n (r b s) : (cset r b s).n = s.n := rfl
@[simp] theorem cset_z (r b s) : (cset r b s).z = s.z := rfl
@[simp] theorem cset_c (r b s) : (cset r b s).c = s.c := rfl
@[simp] theorem cset_v (r b s) : (cset r b s).v = s.v := rfl
@[simp] theorem cset_carry (r b s) : (cset r b s).carry = s.carry := rfl
@[simp] theorem cset_mem (r b s) : (cset r b s).mem = s.mem := rfl
@[simp] theorem setX_n (r v : Nat) (s : S) : (s.setX r v).n = s.n := rfl
@[simp] theorem setX_z (r v : Nat) (s : S) : (s.setX r v).z = s.z := rfl
@[simp] theorem setX_c (r v : Nat) (s : S) : (s.setX r v).c = s.c := rfl
@[simp] theorem setX_v (r v : Nat) (s : S) : (s.setX r v).v = s.v := rfl
@[simp] theorem setX_mem (r v : Nat) (s : S) : (s.setX r v).mem = s.mem := rfl
@[simp] theorem setX_carry (r v : Nat) (s : S) : (s.setX r v).carry = s.carry := rfl
@[simp] theorem setX_exp (r v : Nat) (s : S) : (s.setX r v).exp = s.exp := rfl
@[simp] theorem setX_sp (r v : Nat) (s : S) : (s.setX r v).sp = s.sp := rfl
@[simp] theorem setX_fp (r v : Nat) (s : S) : (s.setX r v).fp = s.fp := rfl
@[simp] theorem setX_nearFlags (r v : Nat) (s : S) : (s.setX r v).nearFlags = s.nearFlags := rfl
theorem getX_setX_ne (r v k : Nat) (s : S) (h : k ≠ r) :
    (s.setX r v).getX k = s.getX k := by
  unfold getX setX
  by_cases h31 : k = 31 <;> simp [h31, h]

theorem getX_setX_same (r v : Nat) (s : S) (h : r ≠ 31) :
    (s.setX r v).getX r = v % 2 ^ 64 := by
  unfold getX setX
  simp [h, Nat.mod_mod]

@[simp] theorem setR_n (w r v : Nat) (s : S) : (s.setR w r v).n = s.n := by
  unfold setR; split <;> rfl
@[simp] theorem setR_z (w r v : Nat) (s : S) : (s.setR w r v).z = s.z := by
  unfold setR; split <;> rfl
@[simp] theorem setR_c (w r v : Nat) (s : S) : (s.setR w r v).c = s.c := by
  unfold setR; split <;> rfl
@[simp] theorem setR_v (w r v : Nat) (s : S) : (s.setR w r v).v = s.v := by
  unfold setR; split <;> rfl
@[simp] theorem setR_mem (w r v : Nat) (s : S) : (s.setR w r v).mem = s.mem := by
  unfold setR; split <;> rfl
@[simp] theorem setR_carry (w r v : Nat) (s : S) : (s.setR w r v).carry = s.carry := by
  unfold setR; split <;> rfl
@[simp] theorem setR_exp (w r v : Nat) (s : S) : (s.setR w r v).exp = s.exp := by
  unfold setR; split <;> rfl
@[simp] theorem setR_sp (w r v : Nat) (s : S) : (s.setR w r v).sp = s.sp := by
  unfold setR; split <;> rfl
@[simp] theorem setR_fp (w r v : Nat) (s : S) : (s.setR w r v).fp = s.fp := by
  unfold setR; split <;> rfl
@[simp] theorem setR_nearFlags (w r v : Nat) (s : S) : (s.setR w r v).nearFlags = s.nearFlags := by
  unfold setR; split <;> rfl
theorem getX_setR_ne (w r v k : Nat) (s : S) (h : k ≠ r) :
    (s.setR w r v).getX k = s.getX k := by
  unfold setR; split <;> exact getX_setX_ne _ _ _ _ h

theorem getR_setR_ne (w w2 r v k : Nat) (s : S) (h : k ≠ r) :
    (s.setR w r v).getR w2 k = s.getR w2 k := by
  unfold getR; rw [getX_setR_ne _ _ _ _ _ h]

end S

/-! ## Bit-insertion lemmas -/
theorem bfi64_bit0 (old src : Nat) :
    (bfi64 old src 0 1).testBit 0 = decide (src % 2 = 1) := by
  simp only [bfi64, Nat.testBit_to_div_mod]
  norm_num
  omega

theorem bfi64_bit0_bit4 (old src : Nat) :
    (bfi64 old src 0 1).testBit 4 = old.testBit 4 := by
  simp only [bfi64, Nat.testBit_to_div_mod]
  norm_num
  omega

theorem bfi64_bit4 (old src : Nat) :
    (bfi64 old src 4 1).testBit 4 = decide (src % 2 = 1) := by
  simp only [bfi64, Nat.testBit_to_div_mod]
  norm_num
  omega

theorem bfi64_bit4_bit0 (old src : Nat) :
    (bfi64 old src 4 1).testBit 0 = old.testBit 0 := by
  simp only [bfi64, Nat.testBit_to_div_mod]
  norm_num
  omega

/-! ## Claim theorems -/
/-- Claim C3, counterexample.  The claim says that for a width-4
mov_reg_param from a cold-register spill on a big-endian host the
generated load reads the full 8-byte slot; the source
(drcbearm64.cpp:1160-1161) instead emits a 4-byte load at slot + 4.
At the concrete input (big-endian, width 4, slot address 4096, cold) the
emitted load is the 4-byte load at 4100, not the 8-byte load at 4096. -/
theorem C3_counterexample :
    mov_reg_param_load true 4 4096 true = ⟨4, 4100⟩ ∧
      mov_reg_param_load true 4 4096 true ≠ ⟨8, 4096⟩ := by
  constructor <;> decide

/-- Claim C3, amended: for every call to mov_reg_param at width 4 whose
source parameter is a cold-register memory spill, the generated load
reads the 4-byte element at the high half of the 8-byte slot (slot
address + 4) when the host is big-endian, and otherwise reads the 4-byte
element at the slot low address.  (The full-8-byte transfer is what
mov_param_reg does on the store side for cold registers.) -/
theorem C3_amended (be : Bool) (a : Nat) :
    mov_reg_param_load be 4 a true = if be then ⟨4, a + 4⟩ else ⟨4, a⟩ := by
  cases be <;> simp [mov_reg_param_load, hostBigEndian]

/-- Claim C4: for every FCMP, on the native flags produced by the float
compare, the value the generated code bitfield-inserts into bit 4 of the
emulated-flags register equals the AND of the four condition tests
not-equal, carry-set, overflow-set and plus, each evaluated as a CSET on
those flags.  (The source inserts SCRATCH_REG2, which holds only the
overflow-set CSET, but on the four flag states FCMP can produce that
coincides with the AND of the four tests.) -/
theorem store_unordered_bit4 (t : S) :
    ((store_unordered t).getX FLAGS_REG).testBit 4 = t.v := by
  cases htv : t.v <;>
    (simp only [store_unordered, S.andOp, S.cset, S.setR, S.bfiReg, FLAGS_REG,
      SCRATCH_REG1, SCRATCH_REG2]
     rw [S.getX_setX_same _ _ _ (by decide), Nat.testBit_mod_two_pow]
     simp [bfi64_bit4, S.getX_setX_ne, S.getX_setX_same, S.setX_v, htv])

theorem C4_fcmp_unordered_bit (s : S)
    (h : (s.n, s.z, s.c, s.v) ∈ fcmpOutcomes) :
    ((op_fcmp_tail s).getX FLAGS_REG).testBit 4 =
      (!s.n && !s.z && s.c && s.v) := by
  rw [op_fcmp_tail, store_unordered_bit4]
  have hv : (store_carry true s).v = s.v := by
    simp [store_carry, store_carry_reg, S.bfiReg]
  rw [hv]
  simp only [fcmpOutcomes, List.mem_cons, List.not_mem_nil, or_false,
    Prod.mk.injEq] at h
  rcases h with ⟨hn, hz, hc, hv⟩ | ⟨hn, hz, hc, hv⟩ | ⟨hn, hz, hc, hv⟩ |
    ⟨hn, hz, hc, hv⟩ <;> rw [hn, hz, hc, hv] <;> rfl

/-- Witness for C4: the unordered outcome (N=0 Z=0 C=1 V=1). -/
theorem C4_fcmp_unordered_bit_witness :
    (((initState.msrNZCV (2 ^ 29 + 2 ^ 28)).n, (initState.msrNZCV (2 ^ 29 + 2 ^ 28)).z,
      (initState.msrNZCV (2 ^ 29 + 2 ^ 28)).c, (initState.msrNZCV (2 ^ 29 + 2 ^ 28)).v)
        ∈ fcmpOutcomes) ∧
    ((op_fcmp_tail (initState.msrNZCV (2 ^ 29 + 2 ^ 28))).getX FLAGS_REG).testBit 4 =
      (!(initState.msrNZCV (2 ^ 29 + 2 ^ 28)).n && !(initState.msrNZCV (2 ^ 29 + 2 ^ 28)).z &&
        (initState.msrNZCV (2 ^ 29 + 2 ^ 28)).c && (initState.msrNZCV (2 ^ 29 + 2 ^ 28)).v) :=
  ⟨by decide, C4_fcmp_unordered_bit (initState.msrNZCV (2 ^ 29 + 2 ^ 28)) (by decide)⟩

/-- Claim C6: the end-to-end scenario ADD I0,#0xFFFFFFFF,#1 (size 4,
flags C|Z|V|S), GETFLGS I1,C|Z|V|S, EXIT I1 makes entry return 0b00101:
C and Z set, V and S clear.  I0 and I1 are the hot UML registers x19 and
x20; the flag mask C|Z|V|S is 0b1111. -/
theorem C6_add_getflgs_exit :
    op_exit_value (.intReg 20)
      (op_getflgs (FLAG_C + FLAG_V + FLAG_Z + FLAG_S) (.intReg 20)
        (op_add false 4 (FLAG_C + FLAG_V + FLAG_Z + FLAG_S) (.intReg 19)
          (.imm 0xFFFFFFFF) (.imm 1) initState)) = 0b00101 := by
  decide

/-- Claim C10: a GETFLGS whose mask selects none of C, V, Z, S, U stores
zero to the destination. -/
theorem C10_getflgs_empty_mask (mask : Nat) (dstp : BeParam) (s : S)
    (hni : dstp.isImm = false)
    (hc : mask &&& FLAG_C = 0) (hv : mask &&& FLAG_V = 0)
    (hz : mask &&& FLAG_Z = 0) (hs : mask &&& FLAG_S = 0)
    (hu : mask &&& FLAG_U = 0) :
    destVal 4 (op_getflgs mask dstp s) dstp = 0 := by
  unfold op_getflgs
  simp only [hc, hv, hz, hs, hu]
  norm_num
  cases dstp with
  | imm v => simp [BeParam.isImm] at hni
  | intReg i =>
      by_cases h31 : i = 31
      · subst h31
        simp [destVal, mov_param_reg, BeParam.selectReg, S.getR, S.getX, S.setX]
      · simp only [destVal, mov_param_reg, BeParam.selectReg, ne_eq,
          not_true_eq_false, if_false, ite_self]
        simp only [S.getR, if_pos rfl]
        rw [S.getX_setX_same _ _ _ h31]
        simp [S.getX]
  | mem a cold =>
      cases cold with
      | true =>
          simp only [destVal, mov_param_reg, BeParam.selectReg, if_pos rfl, if_true]
          rw [readMem_writeMem_same]
          rw [S.getX_setX_same _ _ _ (by decide)]
          simp [S.getX]
      | false =>
          simp only [destVal, mov_param_reg, BeParam.selectReg,
            Bool.false_eq_true, if_false]
          rw [readMem_writeMem_same]
          simp only [S.getR, if_pos rfl]
          rw [S.getX_setX_same _ _ _ (by decide)]
          simp [S.getX]

/-- Witness for C10: mask 0x20 (no UML flag bits), destination I0. -/
theorem C10_getflgs_empty_mask_witness :
    destVal 4 (op_getflgs 0x20 (.intReg 19) initState) (.intReg 19) = 0 :=
  C10_getflgs_empty_mask 0x20 (.intReg 19) initState (by decide) (by decide)
    (by decide) (by decide) (by decide) (by decide)

/-- Claim C9: when begin_codegen reports no room (returns null) the
block is signalled to abort and the cache is untouched (no exception is
raised: the model is a total function); otherwise the assembled bytes
are copied to the base address and the bump pointer advances by
alignment plus code size. -/
theorem C9_cache_commit (c : DrcCache) (baseAddress : Nat) (code : List Nat)
    (hne : code ≠ []) :
    (c.begin_codegen (baseAddress - c.top + code.length) = none →
      (generate_commit c baseAddress code).1 = true ∧
        (generate_commit c baseAddress code).2 = c) ∧
    (∀ t, c.begin_codegen (baseAddress - c.top + code.length) = some t →
      (generate_commit c baseAddress code).1 = false ∧
        (generate_commit c baseAddress code).2.top =
          c.top + (baseAddress - c.top) + code.length ∧
        ∀ i, i < code.length →
          (generate_commit c baseAddress code).2.bytes (baseAddress + i) =
            code.getD i 0) := by
  constructor
  · intro h
    unfold generate_commit emit
    dsimp only
    rw [h]
    exact ⟨rfl, rfl⟩
  · intro t h
    unfold generate_commit emit
    dsimp only
    rw [h]
    refine ⟨?_, rfl, ?_⟩
    · simp only [beq_eq_false_iff_ne, ne_eq, List.length_eq_zero]
      exact hne
    · intro i hi
      simp only [copyFlattened]
      rw [if_pos ⟨Nat.le_add_right _ _, by omega⟩, Nat.add_sub_cancel_left]

/-- Witness for C9: a cache with 8 bytes of room, a 2-byte block at an
aligned base 4 past the top fits; the same block with the limit at the
top does not. -/
theorem C9_cache_commit_witness :
    ((⟨100, 100, fun _ => 0⟩ : DrcCache).begin_codegen (4 + 2) = none →
      (generate_commit ⟨100, 100, fun _ => 0⟩ 104 [7, 9]).1 = true ∧
        (generate_commit ⟨100, 100, fun _ => 0⟩ 104 [7, 9]).2 = ⟨100, 100, fun _ => 0⟩) ∧
    (∀ t, (⟨100, 100, fun _ => 0⟩ : DrcCache).begin_codegen (4 + 2) = some t →
      (generate_commit ⟨100, 100, fun _ => 0⟩ 104 [7, 9]).1 = false ∧
        (generate_commit ⟨100, 100, fun _ => 0⟩ 104 [7, 9]).2.top = 100 + (104 - 100) + 2 ∧
        ∀ i, i < 2 →
          (generate_commit ⟨100, 100, fun _ => 0⟩ 104 [7, 9]).2.bytes (104 + i) =
            [7, 9].getD i 0) :=
  C9_cache_commit ⟨100, 100, fun _ => 0⟩ 104 [7, 9] (by decide)

/-! ### Carry-state preservation lemmas -/
theorem mov_reg_param_carry (w d : Nat) (p : BeParam) (s : S) :
    (mov_reg_param w d p s).carry = s.carry := by
  unfold mov_reg_param
  cases p <;> simp only [S.setR_carry] <;> split <;> simp [S.setR_carry]

theorem mov_param_reg_carry (w : Nat) (p : BeParam) (src : Nat) (s : S) :
    (mov_param_reg w p src s).carry = s.carry := by
  unfold mov_param_reg
  cases p <;> simp only [S.setR_carry] <;> split <;> simp [S.setR_carry]

/-- Claim C5: the carry-state tracking invariants.  store_carry from the
native C flag leaves CANONICAL and stores C in emulated-flags bit 0;
store_carry from the complement leaves LOGICAL and stores the complement;
and the generators that emit calls out to the host (CALLC, the memory
accessors, the debug hook when the debugger is enabled) leave POISON. -/
theorem C5_carry_state_tracking :
    (∀ s : S, (store_carry false s).carry = CarryState.CANONICAL ∧
      ((store_carry false s).getX FLAGS_REG).testBit 0 = s.c) ∧
    (∀ s : S, (store_carry true s).carry = CarryState.LOGICAL ∧
      ((store_carry true s).getX FLAGS_REG).testBit 0 = !s.c) ∧
    (∀ (condMet : Bool) (f : HostCall) (pa fa : Nat) (s : S),
      (op_callc condMet f pa fa s).carry = CarryState.POISON) ∧
    (∀ (f : HostCall) (w : Nat) (dstp addrp : BeParam) (s : S),
      (op_read f w dstp addrp s).carry = CarryState.POISON) ∧
    (∀ (dfw : Nat) (f : HostCall) (hobj : Nat) (pcp : BeParam) (s : S),
      (op_debug true dfw f hobj pcp s).carry = CarryState.POISON) := by
  have hbit : ∀ (b : Bool) (s : S),
      ((store_carry b s).getX FLAGS_REG).testBit 0 = (if b then !s.c else s.c) := by
    intro b s
    simp only [store_carry, store_carry_reg, S.cset, S.bfiReg, FLAGS_REG, SCRATCH_REG1]
    rw [S.getX_setX_same _ _ _ (by decide), Nat.testBit_mod_two_pow]
    norm_num [bfi64_bit0]
    rw [S.getX_setX_same _ _ _ (by decide)]
    cases b <;> cases s.c <;> simp [bfi64] <;> omega
  refine ⟨fun s => ⟨rfl, ?_⟩, fun s => ⟨rfl, ?_⟩, fun _ _ _ _ _ => rfl, ?_, ?_⟩
  · rw [hbit]; rfl
  · rw [hbit]; rfl
  · intro f w dstp addrp s
    unfold op_read
    rw [mov_param_reg_carry]
    show (applyHost f _).carry = _
    rw [show ∀ t, (applyHost f t).carry = t.carry from fun _ => rfl]
    rw [mov_reg_param_carry]
  · intro dfw f hobj pcp s
    unfold op_debug
    simp only [if_true]
    split
    · rw [show ∀ t, (applyHost f t).carry = t.carry from fun _ => rfl]
      rw [mov_reg_param_carry]
      rfl
    · rfl

theorem paramVal_lt (w : Nat) (s : S) (p : BeParam) (hw : w = 4 ∨ w = 8) :
    paramVal w s p < 2 ^ (w * 8) := by
  have hm : ∀ a, readMem s.mem a w < 2 ^ (w * 8) := fun a => by
    rw [Nat.mul_comm]; exact readMem_lt s.mem a w
  rcases hw with h | h <;> subst h <;> cases p with
  | imm v => simp only [paramVal]; split <;> first | omega | simp_all
  | intReg i =>
      simp only [paramVal, S.getR, S.getX]
      split <;> split <;> first | omega | simp_all
  | mem a cold =>
      simp only [paramVal, hostBigEndian, Bool.false_eq_true, false_and, if_false]
      exact hm a

theorem mov_exp_param_exp (p : BeParam) (t : S) :
    (mov_exp_param p t).exp = paramVal 4 t p := by
  cases p with
  | imm v =>
      by_cases hv : v = 0
      · subst hv; simp [mov_exp_param, paramVal]
      · simp [mov_exp_param, paramVal, hv, S.getR, S.setR, SCRATCH_REG2,
          S.getX_setX_same, Nat.mod_mod]
        omega
  | intReg i => rfl
  | mem a cold =>
      simp [mov_exp_param, paramVal, hostBigEndian, S.getR, S.setR, SCRATCH_REG2,
        S.getX_setX_same]
      have h4 := readMem_lt t.mem a 4
      norm_num at h4 ⊢
      omega

theorem mov_exp_param_sp (p : BeParam) (t : S) :
    (mov_exp_param p t).sp = t.sp := by
  cases p <;> simp only [mov_exp_param] <;> split <;> simp [S.setR_sp]

theorem paramVal_stable (w : Nat) (p : BeParam) (t t' : S) (hw : p.wf)
    (hmem : t'.mem = t.mem)
    (hregs : ∀ i, 19 ≤ i → i ≤ 26 → t'.getX i = t.getX i) :
    paramVal w t' p = paramVal w t p := by
  cases p with
  | imm v => rfl
  | intReg i =>
      simp only [paramVal, S.getR]
      rw [hregs i hw.1 hw.2]
  | mem a cold => simp only [paramVal, hmem]

theorem mov_reg_param_getX_other (w d k : Nat) (p : BeParam) (t : S)
    (hk : k ≠ d) : (mov_reg_param w d p t).getX k = t.getX k := by
  cases p <;> simp only [mov_reg_param] <;> (try split) <;>
    first
      | rfl
      | (exact S.getX_setR_ne _ _ _ _ _ hk)

theorem mov_reg_param_mem (w d : Nat) (p : BeParam) (t : S) :
    (mov_reg_param w d p t).mem = t.mem := by
  cases p <;> simp only [mov_reg_param] <;> (try split) <;> simp [S.setR_mem]

theorem mov_reg_param_fixed_getX (d : Nat) (p : BeParam) (t : S)
    (hd31 : d ≠ 31) (hd : ∀ i, p = .intReg i → d ≠ i) :
    (mov_reg_param 4 d p t).getX d = paramVal 4 t p := by
  cases p with
  | imm v =>
      simp [mov_reg_param, paramVal, S.setR, S.getX_setX_same, hd31]
      omega
  | intReg i =>
      have hdi : d ≠ i := hd i rfl
      simp [mov_reg_param, paramVal, hdi, S.setR, S.getX_setX_same, hd31, S.getR]
      omega
  | mem a cold =>
      simp [mov_reg_param, paramVal, hostBigEndian, S.setR, S.getX_setX_same, hd31]
      have h4 := readMem_lt t.mem a 4
      norm_num at h4 ⊢
      omega

theorem S.getX_lt (s : S) (r : Nat) : s.getX r < 2 ^ 64 := by
  unfold S.getX
  split
  · norm_num
  · exact Nat.mod_lt _ (by norm_num)

theorem S.ubfx_getX_same (rd rn l b : Nat) (t : S) (hrd : rd ≠ 31) :
    (t.ubfx rd rn l b).getX rd = t.getX rn >>> l &&& bmask b := by
  unfold S.ubfx
  rw [S.getX_setX_same _ _ _ hrd]
  apply Nat.mod_eq_of_lt
  calc t.getX rn >>> l &&& bmask b ≤ t.getX rn >>> l := Nat.and_le_left
    _ ≤ t.getX rn := by
          rw [Nat.shiftRight_eq_div_pow]
          exact Nat.div_le_self _ _
    _ < 2 ^ 64 := t.getX_lt rn

theorem S.ubfx_getX_other (rd rn l b k : Nat) (t : S) (hk : k ≠ rd) :
    (t.ubfx rd rn l b).getX k = t.getX k := by
  unfold S.ubfx
  exact S.getX_setX_ne _ _ _ _ hk

theorem mov_reg_param_sp (w d : Nat) (p : BeParam) (t : S) :
    (mov_reg_param w d p t).sp = t.sp := by
  cases p <;> simp only [mov_reg_param] <;> (try split) <;> simp [S.setR_sp]

theorem mov_reg_param_select_getX (p : BeParam) (t : S)
    (h32 : param32 t p) (hw : p.wf) :
    (mov_reg_param 4 (p.selectReg TEMP_REG2) p t).getX (p.selectReg TEMP_REG2) =
      paramVal 4 t p := by
  cases p with
  | imm v =>
      simp [mov_reg_param, paramVal, BeParam.selectReg, TEMP_REG2, S.setR,
        S.getX_setX_same]
      omega
  | intReg i =>
      simp [mov_reg_param, paramVal, BeParam.selectReg, S.getR]
      have : t.getX i < 2 ^ 32 := h32
      omega
  | mem a cold =>
      simp [mov_reg_param, paramVal, BeParam.selectReg, TEMP_REG2, hostBigEndian,
        S.setR, S.getX_setX_same]
      have h4 := readMem_lt t.mem a 4
      norm_num at h4 ⊢
      omega

theorem hashjmp_selchain_spec (ht : HashTable) (nocode mval : Nat)
    (pcp : BeParam) (t : S) (hpw : pcp.wf) (hp32 : param32 t pcp) :
    ht.entry nocode mval
      ((((mov_reg_param 4 (pcp.selectReg TEMP_REG2) pcp t).ubfx TEMP_REG3
          (pcp.selectReg TEMP_REG2) ht.l1shift ht.l1bits).ubfx TEMP_REG2
          (pcp.selectReg TEMP_REG2) ht.l2shift ht.l2bits).getX TEMP_REG3)
      ((((mov_reg_param 4 (pcp.selectReg TEMP_REG2) pcp t).ubfx TEMP_REG3
          (pcp.selectReg TEMP_REG2) ht.l1shift ht.l1bits).ubfx TEMP_REG2
          (pcp.selectReg TEMP_REG2) ht.l2shift ht.l2bits).getX TEMP_REG2) =
      (ht.entries mval (paramVal 4 t pcp >>> ht.l1shift &&& bmask ht.l1bits)
        (paramVal 4 t pcp >>> ht.l2shift &&& bmask ht.l2bits)).getD nocode ∧
    (((mov_reg_param 4 (pcp.selectReg TEMP_REG2) pcp t).ubfx TEMP_REG3
        (pcp.selectReg TEMP_REG2) ht.l1shift ht.l1bits).ubfx TEMP_REG2
        (pcp.selectReg TEMP_REG2) ht.l2shift ht.l2bits).mem = t.mem ∧
    (∀ i, 19 ≤ i → i ≤ 26 →
      (((mov_reg_param 4 (pcp.selectReg TEMP_REG2) pcp t).ubfx TEMP_REG3
          (pcp.selectReg TEMP_REG2) ht.l1shift ht.l1bits).ubfx TEMP_REG2
          (pcp.selectReg TEMP_REG2) ht.l2shift ht.l2bits).getX i = t.getX i) ∧
    (((mov_reg_param 4 (pcp.selectReg TEMP_REG2) pcp t).ubfx TEMP_REG3
        (pcp.selectReg TEMP_REG2) ht.l1shift ht.l1bits).ubfx TEMP_REG2
        (pcp.selectReg TEMP_REG2) ht.l2shift ht.l2bits).sp = t.sp := by
  have dsel3 : pcp.selectReg TEMP_REG2 ≠ TEMP_REG3 :=
    BeParam.selectReg_ne pcp TEMP_REG2 TEMP_REG3 hpw (by decide) (by left; decide)
  have d3sel : TEMP_REG3 ≠ pcp.selectReg TEMP_REG2 := fun h => dsel3 h.symm
  have hS : (mov_reg_param 4 (pcp.selectReg TEMP_REG2) pcp t).getX
      (pcp.selectReg TEMP_REG2) = paramVal 4 t pcp :=
    mov_reg_param_select_getX pcp t hp32 hpw
  refine ⟨?_, ?_, ?_, ?_⟩
  · rw [S.ubfx_getX_same _ _ _ _ _ (by decide),
      S.ubfx_getX_other _ _ _ _ _ _ (show TEMP_REG3 ≠ TEMP_REG2 by decide),
      S.ubfx_getX_same _ _ _ _ _ (by decide),
      S.ubfx_getX_other _ _ _ _ _ _ dsel3, hS]
    rfl
  · simp [S.ubfx, mov_reg_param_mem]
  · intro i h1 h2
    rw [S.ubfx_getX_other _ _ _ _ _ _ (by unfold TEMP_REG2; omega)]
    rw [S.ubfx_getX_other _ _ _ _ _ _ (by unfold TEMP_REG3; omega)]
    by_cases hpi : pcp = BeParam.intReg i
    · subst hpi
      simp [mov_reg_param, BeParam.selectReg]
    · apply mov_reg_param_getX_other
      cases pcp with
      | imm v => simp [BeParam.selectReg]; unfold TEMP_REG2; omega
      | mem a c => simp [BeParam.selectReg]; unfold TEMP_REG2; omega
      | intReg j =>
          simp [BeParam.selectReg]
          intro h
          exact hpi (by rw [h])
  · simp [S.ubfx, mov_reg_param_sp]

theorem op_hashjmp_lookup_spec (ht : HashTable) (nocode : Nat)
    (modep pcp : BeParam) (t : S)
    (hmw : modep.wf) (hpw : pcp.wf)
    (hm32 : param32 t modep) (hp32 : param32 t pcp) :
    (op_hashjmp_lookup ht nocode modep pcp t).1 =
      (ht.lookup (paramVal 4 t modep) (paramVal 4 t pcp)).getD nocode ∧
    (op_hashjmp_lookup ht nocode modep pcp t).2.mem = t.mem ∧
    (∀ i, 19 ≤ i → i ≤ 26 →
      (op_hashjmp_lookup ht nocode modep pcp t).2.getX i = t.getX i) ∧
    (op_hashjmp_lookup ht nocode modep pcp t).2.sp = t.sp := by
  have hpc10 : ∀ i, pcp = .intReg i → TEMP_REG2 ≠ i := by
    intro i hi
    subst hi
    show (10 : Nat) ≠ i
    have := hpw
    unfold BeParam.wf at this
    omega
  unfold op_hashjmp_lookup
  by_cases hpop : (modep.isImm && ht.modePopulated modep.immValue) = true
  · rw [if_pos hpop]
    obtain ⟨mv, rfl⟩ : ∃ v, modep = .imm v := by
      cases modep with
      | imm v => exact ⟨v, rfl⟩
      | intReg i => simp [BeParam.isImm] at hpop
      | mem a c => simp [BeParam.isImm] at hpop
    have hmv : mv < 2 ^ 32 := hm32
    cases pcp with
    | imm v =>
        have hv : v < 2 ^ 32 := hp32
        refine ⟨?_, rfl, ?_, rfl⟩
        · have hmv2 : mv % 4294967296 = mv := Nat.mod_eq_of_lt (by omega)
          have hv2 : v % 4294967296 = v := Nat.mod_eq_of_lt (by omega)
          simp [HashTable.entry, HashTable.lookup, paramVal, BeParam.immValue,
            hmv2, hv2]
        · intro i h1 h2
          exact S.getX_setX_ne _ _ _ _ (by unfold TEMP_REG1; omega)
    | intReg j =>
        have hA : (mov_reg_param 4 TEMP_REG2 (.intReg j) t).getX TEMP_REG2 =
            paramVal 4 t (.intReg j) :=
          mov_reg_param_fixed_getX _ _ _ (by decide) hpc10
        have d23 : TEMP_REG2 ≠ TEMP_REG3 := by decide
        have d32 : TEMP_REG3 ≠ TEMP_REG2 := by decide
        have d231 : TEMP_REG2 ≠ (31 : Nat) := by decide
        have d331 : TEMP_REG3 ≠ (31 : Nat) := by decide
        have hmv2 : mv % 4294967296 = mv := Nat.mod_eq_of_lt (by omega)
        refine ⟨?_, ?_, ?_, ?_⟩
        · simp only [S.ubfx_getX_same _ _ _ _ _ d231, S.ubfx_getX_other _ _ _ _ _ _ d32,
            S.ubfx_getX_other _ _ _ _ _ _ d23, S.ubfx_getX_same _ _ _ _ _ d331, hA]
          simp [HashTable.entry, HashTable.lookup, paramVal, BeParam.immValue, hmv2]
        · simp [S.ubfx, mov_reg_param_mem]
        · intro i h1 h2
          rw [S.getX_setX_ne _ _ _ _ (by unfold TEMP_REG1; omega)]
          rw [S.ubfx_getX_other _ _ _ _ _ _ (by unfold TEMP_REG2; omega)]
          rw [S.ubfx_getX_other _ _ _ _ _ _ (by unfold TEMP_REG3; omega)]
          exact mov_reg_param_getX_other _ _ _ _ _ (by unfold TEMP_REG2; omega)
        · simp [S.ubfx, mov_reg_param_sp]
    | mem a cold =>
        have hA : (mov_reg_param 4 TEMP_REG2 (.mem a cold) t).getX TEMP_REG2 =
            paramVal 4 t (.mem a cold) :=
          mov_reg_param_fixed_getX _ _ _ (by decide) hpc10
        have d23 : TEMP_REG2 ≠ TEMP_REG3 := by decide
        have d32 : TEMP_REG3 ≠ TEMP_REG2 := by decide
        have d231 : TEMP_REG2 ≠ (31 : Nat) := by decide
        have d331 : TEMP_REG3 ≠ (31 : Nat) := by decide
        have hmv2 : mv % 4294967296 = mv := Nat.mod_eq_of_lt (by omega)
        refine ⟨?_, ?_, ?_, ?_⟩
        · simp only [S.ubfx_getX_same _ _ _ _ _ d231, S.ubfx_getX_other _ _ _ _ _ _ d32,
            S.ubfx_getX_other _ _ _ _ _ _ d23, S.ubfx_getX_same _ _ _ _ _ d331, hA]
          simp [HashTable.entry, HashTable.lookup, paramVal, BeParam.immValue, hmv2]
        · simp [S.ubfx, mov_reg_param_mem]
        · intro i h1 h2
          rw [S.getX_setX_ne _ _ _ _ (by unfold TEMP_REG1; omega)]
          rw [S.ubfx_getX_other _ _ _ _ _ _ (by unfold TEMP_REG2; omega)]
          rw [S.ubfx_getX_other _ _ _ _ _ _ (by unfold TEMP_REG3; omega)]
          exact mov_reg_param_getX_other _ _ _ _ _ (by unfold TEMP_REG2; omega)
        · simp [S.ubfx, mov_reg_param_sp]
  · rw [if_neg hpop]
    cases modep with
    | imm mv =>
        have hmv : mv < 2 ^ 32 := hm32
        have hmv2 : mv % 4294967296 = mv := Nat.mod_eq_of_lt (by omega)
        simp only [BeParam.isImm, if_true]
        cases pcp with
        | imm v =>
            have hv : v < 2 ^ 32 := hp32
            have hv2 : v % 4294967296 = v := Nat.mod_eq_of_lt (by omega)
            refine ⟨?_, rfl, ?_, rfl⟩
            · simp [HashTable.entry, HashTable.lookup, paramVal,
                BeParam.immValue, hmv2, hv2]
            · intro i h1 h2
              exact S.getX_setX_ne _ _ _ _ (by unfold TEMP_REG1; omega)
        | intReg j =>
            obtain ⟨he, hmem, hregs, hsp⟩ :=
              hashjmp_selchain_spec ht nocode (BeParam.imm mv).immValue
                (.intReg j) t hpw hp32
            refine ⟨?_, ?_, ?_, ?_⟩
            · rw [he]
              simp [HashTable.lookup, paramVal, BeParam.immValue, hmv2]
            · simpa using hmem
            · intro i h1 h2
              rw [S.getX_setX_ne _ _ _ _ (by unfold TEMP_REG1; omega)]
              exact hregs i h1 h2
            · simpa using hsp
        | mem a cold =>
            obtain ⟨he, hmem, hregs, hsp⟩ :=
              hashjmp_selchain_spec ht nocode (BeParam.imm mv).immValue
                (.mem a cold) t hpw hp32
            refine ⟨?_, ?_, ?_, ?_⟩
            · rw [he]
              simp [HashTable.lookup, paramVal, BeParam.immValue, hmv2]
            · simpa using hmem
            · intro i h1 h2
              rw [S.getX_setX_ne _ _ _ _ (by unfold TEMP_REG1; omega)]
              exact hregs i h1 h2
            · simpa using hsp
    | intReg im =>
        have him : t.getX im < 2 ^ 32 := hm32
        have him2 : t.getX im % 4294967296 = t.getX im := Nat.mod_eq_of_lt (by omega)
        have hsel : (BeParam.intReg im).selectReg TEMP_REG1 = im := rfl
        have hA : mov_reg_param 4 im (BeParam.intReg im) t = t := by
          simp [mov_reg_param]
        simp only [BeParam.isImm, Bool.false_eq_true, if_false, hsel, hA]
        cases pcp with
        | imm v =>
            have hv : v < 2 ^ 32 := hp32
            have hv2 : v % 4294967296 = v := Nat.mod_eq_of_lt (by omega)
            refine ⟨?_, rfl, ?_, rfl⟩
            · simp [HashTable.entry, HashTable.lookup, paramVal, S.getR,
                him2, hv2]
            · intro i h1 h2
              exact S.getX_setX_ne _ _ _ _ (by unfold TEMP_REG1; omega)
        | intReg j =>
            obtain ⟨he, hmem, hregs, hsp⟩ :=
              hashjmp_selchain_spec ht nocode (t.getX im) (.intReg j) t hpw hp32
            dsimp only
            refine ⟨?_, ?_, ?_, ?_⟩
            · rw [he]
              simp [HashTable.lookup, paramVal, S.getR, him2]
            · simpa using hmem
            · intro i h1 h2
              rw [S.getX_setX_ne _ _ _ _ (by unfold TEMP_REG1; omega)]
              exact hregs i h1 h2
            · simpa using hsp
        | mem a cold =>
            obtain ⟨he, hmem, hregs, hsp⟩ :=
              hashjmp_selchain_spec ht nocode (t.getX im) (.mem a cold) t hpw hp32
            dsimp only
            refine ⟨?_, ?_, ?_, ?_⟩
            · rw [he]
              simp [HashTable.lookup, paramVal, S.getR, him2]
            · simpa using hmem
            · intro i h1 h2
              rw [S.getX_setX_ne _ _ _ _ (by unfold TEMP_REG1; omega)]
              exact hregs i h1 h2
            · simpa using hsp
    | mem ma mcold =>
        have hselB : (BeParam.mem ma mcold).selectReg TEMP_REG1 = TEMP_REG1 := rfl
        simp only [BeParam.isImm, Bool.false_eq_true, if_false, hselB]
        have hB : (mov_reg_param 4 TEMP_REG1 (.mem ma mcold) t).getX TEMP_REG1 =
            paramVal 4 t (.mem ma mcold) :=
          mov_reg_param_fixed_getX _ _ _ (by decide) (by intro i h; cases h)
        have hBmem : (mov_reg_param 4 TEMP_REG1 (.mem ma mcold) t).mem = t.mem :=
          mov_reg_param_mem _ _ _ _
        have hBregs : ∀ i, 19 ≤ i → i ≤ 26 →
            (mov_reg_param 4 TEMP_REG1 (.mem ma mcold) t).getX i = t.getX i :=
          fun i h1 h2 =>
            mov_reg_param_getX_other _ _ _ _ _ (by unfold TEMP_REG1; omega)
        have hBsp : (mov_reg_param 4 TEMP_REG1 (.mem ma mcold) t).sp = t.sp :=
          mov_reg_param_sp _ _ _ _
        have hp32B : param32 (mov_reg_param 4 TEMP_REG1 (.mem ma mcold) t) pcp := by
          cases pcp with
          | imm v => exact hp32
          | intReg j =>
              show (mov_reg_param 4 TEMP_REG1 (.mem ma mcold) t).getX j < 2 ^ 32
              rw [hBregs j hpw.1 hpw.2]
              exact hp32
          | mem a c => trivial
        have hPV : paramVal 4 (mov_reg_param 4 TEMP_REG1 (.mem ma mcold) t) pcp =
            paramVal 4 t pcp :=
          paramVal_stable 4 pcp t _ hpw hBmem hBregs
        cases pcp with
        | imm v =>
            have hv : v < 2 ^ 32 := hp32
            have hv2 : v % 4294967296 = v := Nat.mod_eq_of_lt (by omega)
            refine ⟨?_, ?_, ?_, ?_⟩
            · rw [hB]
              simp [HashTable.entry, HashTable.lookup, paramVal, hv2]
            · simpa using hBmem
            · intro i h1 h2
              rw [S.getX_setX_ne _ _ _ _ (by unfold TEMP_REG1; omega)]
              exact hBregs i h1 h2
            · simpa using hBsp
        | intReg j =>
            obtain ⟨he, hmem, hregs, hsp⟩ :=
              hashjmp_selchain_spec ht nocode
                ((mov_reg_param 4 TEMP_REG1 (.mem ma mcold) t).getX TEMP_REG1)
                (.intReg j) (mov_reg_param 4 TEMP_REG1 (.mem ma mcold) t) hpw hp32B
            dsimp only
            refine ⟨?_, ?_, ?_, ?_⟩
            · rw [he, hB, hPV]
              simp [HashTable.lookup, paramVal]
            · rw [S.setX_mem, hmem, hBmem]
            · intro i h1 h2
              rw [S.getX_setX_ne _ _ _ _ (by unfold TEMP_REG1; omega)]
              rw [hregs i h1 h2]
              exact hBregs i h1 h2
            · rw [S.setX_sp, hsp, hBsp]
        | mem a cold =>
            obtain ⟨he, hmem, hregs, hsp⟩ :=
              hashjmp_selchain_spec ht nocode
                ((mov_reg_param 4 TEMP_REG1 (.mem ma mcold) t).getX TEMP_REG1)
                (.mem a cold) (mov_reg_param 4 TEMP_REG1 (.mem ma mcold) t) hpw hp32B
            dsimp only
            refine ⟨?_, ?_, ?_, ?_⟩
            · rw [he, hB, hPV]
              simp [HashTable.lookup, paramVal]
            · rw [S.setX_mem, hmem, hBmem]
            · intro i h1 h2
              rw [S.getX_setX_ne _ _ _ _ (by unfold TEMP_REG1; omega)]
              rw [hregs i h1 h2]
              exact hBregs i h1 h2
            · rw [S.setX_sp, hsp, hBsp]

/-- C7: op_hashjmp first resets the stack pointer to the frame pointer,
and when the two-level table holds no entry for (mode, pc) the lookup
lands on the no-code stub, so control transfers to the exception
handle's code with m_state.exp set to the pc parameter. -/
theorem C7_hashjmp_miss (ht : HashTable) (nocode exhCode labAddr : Nat)
    (modep pcp : BeParam) (s : S)
    (hmw : modep.wf) (hpw : pcp.wf)
    (hm32 : param32 s modep) (hp32 : param32 s pcp)
    (hmiss : ht.lookup (paramVal 4 s modep) (paramVal 4 s pcp) = none) :
    (op_hashjmp ht nocode exhCode labAddr modep pcp s).1 = exhCode ∧
    (op_hashjmp ht nocode exhCode labAddr modep pcp s).2.sp = s.fp ∧
    (op_hashjmp ht nocode exhCode labAddr modep pcp s).2.exp = paramVal 4 s pcp := by
  have hspec := op_hashjmp_lookup_spec ht nocode modep pcp { s with sp := s.fp }
    hmw hpw hm32 hp32
  obtain ⟨h1, hmem, hregs, hsp⟩ := hspec
  have hr1 : (op_hashjmp_lookup ht nocode modep pcp { s with sp := s.fp }).1 = nocode := by
    rw [h1]
    have hm : paramVal 4 { s with sp := s.fp } modep = paramVal 4 s modep := rfl
    have hp : paramVal 4 { s with sp := s.fp } pcp = paramVal 4 s pcp := rfl
    rw [hm, hp, hmiss]
    rfl
  have hif : op_hashjmp ht nocode exhCode labAddr modep pcp s =
      (exhCode,
        { mov_exp_param pcp
            ((op_hashjmp_lookup ht nocode modep pcp { s with sp := s.fp }).2.setX
              REG_PARAM1 labAddr) with
          carry := CarryState.POISON }) := by
    unfold op_hashjmp
    dsimp only
    rw [if_pos hr1]
  rw [hif]
  refine ⟨rfl, ?_, ?_⟩
  · show (mov_exp_param pcp _).sp = s.fp
    rw [mov_exp_param_sp, S.setX_sp, hsp]
  · show (mov_exp_param pcp _).exp = paramVal 4 s pcp
    rw [mov_exp_param_exp]
    refine paramVal_stable 4 pcp s _ hpw ?_ ?_
    · rw [S.setX_mem, hmem]
    · intro i hi1 hi2
      rw [S.getX_setX_ne _ _ _ _ (by unfold REG_PARAM1; omega)]
      exact hregs i hi1 hi2

/-- C7 witness: HASHJMP 0, 0x1000 through an empty table reaches the
exception handle code (99 here) with m_state.exp = 0x1000. -/
theorem C7_hashjmp_miss_witness :
    (op_hashjmp htW 7 99 55 (.imm 0) (.imm 4096) initState).1 = 99 ∧
    (op_hashjmp htW 7 99 55 (.imm 0) (.imm 4096) initState).2.sp = initState.fp ∧
    (op_hashjmp htW 7 99 55 (.imm 0) (.imm 4096) initState).2.exp =
      paramVal 4 initState (.imm 4096) :=
  C7_hashjmp_miss htW 7 99 55 (.imm 0) (.imm 4096) initState trivial trivial
    (by norm_num [param32]) (by norm_num [param32]) rfl

theorem wrapI_lt (bits : Nat) (i : Int) : wrapI bits i < 2 ^ bits := by
  unfold wrapI
  have hpos : (0 : Int) < ((2 ^ bits : Nat) : Int) := by positivity
  have h1 := Int.emod_lt_of_pos i hpos
  have h2 := Int.emod_nonneg i (by positivity : ((2 ^ bits : Nat) : Int) ≠ 0)
  omega

theorem udivVal_lt (bits a b : Nat) : udivVal bits a b < 2 ^ bits := by
  unfold udivVal
  exact Nat.lt_of_le_of_lt (Nat.div_le_self _ _) (Nat.mod_lt _ (by positivity))

theorem sdivVal_lt (bits a b : Nat) : sdivVal bits a b < 2 ^ bits :=
  wrapI_lt _ _

theorem msubVal_lt (bits m n acc : Nat) : msubVal bits m n acc < 2 ^ bits :=
  wrapI_lt _ _

theorem S.getR_congr (w k : Nat) (t t2 : S) (h : t2.getX k = t.getX k) :
    t2.getR w k = t.getR w k := by
  unfold S.getR; rw [h]

theorem S.getR_lt_w (w r : Nat) (t : S) (hw : w = 4 ∨ w = 8) :
    t.getR w r < 2 ^ (w * 8) := by
  have hx := t.getX_lt r
  rcases hw with rfl | rfl <;> unfold S.getR <;> norm_num at hx ⊢ <;> omega

theorem S.getR_eq_getX (w r : Nat) (t : S) (hw : w = 4 ∨ w = 8)
    (h : t.getX r < 2 ^ (w * 8)) : t.getR w r = t.getX r := by
  rcases hw with rfl | rfl <;> unfold S.getR <;> norm_num at h ⊢ <;> omega

theorem S.getX_setR_same_w (w r v : Nat) (t : S) (hw : w = 4 ∨ w = 8)
    (hr : r ≠ 31) (hv : v < 2 ^ (w * 8)) : (t.setR w r v).getX r = v := by
  rcases hw with rfl | rfl
  · show (t.setX r (v % 2 ^ 32)).getX r = v
    rw [S.getX_setX_same _ _ _ hr]
    norm_num at hv ⊢
    omega
  · show (t.setX r v).getX r = v
    rw [S.getX_setX_same _ _ _ hr]
    norm_num at hv ⊢
    omega

theorem S.getR_setR_same_w (w r v : Nat) (t : S) (hw : w = 4 ∨ w = 8)
    (hr : r ≠ 31) (hv : v < 2 ^ (w * 8)) : (t.setR w r v).getR w r = v := by
  have hx := S.getX_setR_same_w w r v t hw hr hv
  rw [S.getR_eq_getX w r _ hw (by rw [hx]; exact hv), hx]

theorem mov_reg_param_getR (w d : Nat) (p : BeParam) (t : S)
    (hw : w = 4 ∨ w = 8) (hd : d ≠ 31) :
    (mov_reg_param w d p t).getR w d = paramVal w t p := by
  cases p with
  | imm v =>
      rcases hw with rfl | rfl
      · exact S.getR_setR_same_w 4 d (v % 2 ^ 32) t (Or.inl rfl) hd (by omega)
      · exact S.getX_setX_same _ _ _ hd
  | intReg i =>
      by_cases hdi : d = i
      · subst hdi
        show (if d ≠ d then t.setR w d (t.getR w d) else t).getR w d = t.getR w d
        rw [if_neg (by omega)]
      · show (if d ≠ i then t.setR w d (t.getR w i) else t).getR w d = t.getR w i
        rw [if_pos hdi]
        exact S.getR_setR_same_w w d _ t hw hd (S.getR_lt_w w i t hw)
  | mem a cold =>
      simp only [mov_reg_param, paramVal, hostBigEndian, Bool.false_eq_true,
        false_and, if_false]
      refine S.getR_setR_same_w w d _ t hw hd ?_
      have := readMem_lt t.mem a w
      rwa [Nat.mul_comm] at this

theorem destVal_stable (w : Nat) (p : BeParam) (t t2 : S)
    (hregs : ∀ i, p = .intReg i → t2.getX i = t.getX i)
    (hmem : ∀ a c, p = .mem a c →
      readMem t2.mem a (if c then 8 else w) = readMem t.mem a (if c then 8 else w)) :
    destVal w t2 p = destVal w t p := by
  cases p with
  | imm v => rfl
  | intReg i =>
      simp only [destVal]
      exact S.getR_congr w i t t2 (hregs i rfl)
  | mem a c =>
      have h := hmem a c rfl
      cases c <;> simpa [destVal] using h

theorem mov_param_reg_getX_other (w : Nat) (p : BeParam) (src k : Nat) (t : S)
    (hk : ∀ i, p = .intReg i → k ≠ i) :
    (mov_param_reg w p src t).getX k = t.getX k := by
  cases p with
  | imm v => rfl
  | intReg i =>
      simp only [mov_param_reg]
      split
      · exact S.getX_setR_ne _ _ _ _ _ (hk i rfl)
      · rfl
  | mem a c =>
      simp only [mov_param_reg]
      split <;> rfl

theorem mov_param_reg_mem_intReg (w i src : Nat) (t : S) :
    (mov_param_reg w (.intReg i) src t).mem = t.mem := by
  simp only [mov_param_reg]
  split <;> simp [S.setR_mem]

theorem destVal_mov_param_reg (w : Nat) (p : BeParam) (src : Nat) (t : S)
    (hw : w = 4 ∨ w = 8) (hpw : p.wf) (hpm : ¬p.isImm = true)
    (hs : t.getX src < 2 ^ (w * 8)) :
    destVal w (mov_param_reg w p src t) p = t.getX src := by
  cases p with
  | imm v => simp [BeParam.isImm] at hpm
  | intReg i =>
      have hi31 : i ≠ 31 := by
        unfold BeParam.wf at hpw; omega
      by_cases hsi : src = i
      · subst hsi
        show destVal w (if src ≠ src then t.setR w src (t.getR w src) else t)
          (.intReg src) = t.getX src
        rw [if_neg (by omega)]
        exact S.getR_eq_getX w src t hw hs
      · show destVal w (if src ≠ i then t.setR w i (t.getR w src) else t)
          (.intReg i) = t.getX src
        rw [if_pos hsi]
        show (t.setR w i (t.getR w src)).getR w i = t.getX src
        rw [S.getR_setR_same_w w i _ t hw hi31 (S.getR_lt_w w src t hw)]
        exact S.getR_eq_getX w src t hw hs
  | mem a c =>
      cases c with
      | true =>
          show readMem (writeMem t.mem a 8 (t.getX src)) a 8 = t.getX src
          rw [readMem_writeMem_same]
          have hx := t.getX_lt src
          norm_num at hx ⊢
          omega
      | false =>
          show readMem (writeMem t.mem a w (t.getR w src)) a w = t.getX src
          rw [readMem_writeMem_same]
          rw [Nat.mod_eq_of_lt (by rw [Nat.mul_comm]; exact S.getR_lt_w w src t hw)]
          exact S.getR_eq_getX w src t hw hs

theorem destVal_after_other_store (w : Nat) (p p2 : BeParam) (src : Nat) (t : S)
    (hpw : p.wf) (hpm : ¬p.isImm = true) (hqm : ¬p2.isImm = true)
    (hne : p.peq p2 = false) (hsep : memDisjoint w p p2) :
    destVal w (mov_param_reg w p2 src t) p = destVal w t p := by
  cases p with
  | imm v => simp [BeParam.isImm] at hpm
  | intReg i =>
      cases p2 with
      | imm v => simp [BeParam.isImm] at hqm
      | intReg j =>
          have hij : i ≠ j := by
            intro h
            subst h
            simp [BeParam.peq] at hne
          refine destVal_stable w _ t _ ?_ ?_
          · intro k hk
            cases hk
            exact mov_param_reg_getX_other _ _ _ _ _ (fun j2 hj2 => by
              cases hj2; exact hij)
          · intro a c h
            cases h
      | mem a2 c2 =>
          refine destVal_stable w _ t _ ?_ ?_
          · intro k hk
            cases hk
            exact mov_param_reg_getX_other _ _ _ _ _ (fun j2 hj2 => by cases hj2)
          · intro a c h
            cases h
  | mem a c =>
      cases p2 with
      | imm v => simp [BeParam.isImm] at hqm
      | intReg j =>
          refine destVal_stable w _ t _ ?_ ?_
          · intro k hk
            cases hk
          · intro a3 c3 h
            cases h
            rw [mov_param_reg_mem_intReg]
      | mem a2 c2 =>
          refine destVal_stable w _ t _ ?_ ?_
          · intro k hk
            cases hk
          · intro a3 c3 h
            cases h
            cases c2 with
            | true =>
                have hsep2 : a + (if c then 8 else w) ≤ a2 ∨ a2 + 8 ≤ a := hsep
                show readMem (writeMem t.mem a2 8 (t.getX src)) a
                    (if c then 8 else w) =
                  readMem t.mem a (if c then 8 else w)
                exact readMem_writeMem_disjoint _ _ _ _ _ _ hsep2.symm
            | false =>
                have hsep2 : a + (if c then 8 else w) ≤ a2 ∨ a2 + w ≤ a := hsep
                show readMem (writeMem t.mem a2 w (t.getR w src)) a
                    (if c then 8 else w) =
                  readMem t.mem a (if c then 8 else w)
                exact readMem_writeMem_disjoint _ _ _ _ _ _ hsep2.symm

theorem destVal_tstOp (w w2 a b : Nat) (p : BeParam) (s : S) :
    destVal w (S.tstOp w2 a b s) p = destVal w s p := by
  cases p <;> rfl

theorem destVal_msrNZCV (w v2 : Nat) (p : BeParam) (s : S) :
    destVal w (S.msrNZCV v2 s) p = destVal w s p := by
  cases p <;> rfl

theorem destVal_carry (w : Nat) (p : BeParam) (s : S) (cs : CarryState) :
    destVal w { s with carry := cs } p = destVal w s p := by
  cases p <;> rfl

theorem destVal_setX (w d v : Nat) (p : BeParam) (t : S)
    (hpw : p.wf) (hd : d < 19 ∨ 26 < d) :
    destVal w (t.setX d v) p = destVal w t p := by
  refine destVal_stable w p t _ ?_ ?_
  · intro i hi
    subst hi
    unfold BeParam.wf at hpw
    exact S.getX_setX_ne _ _ _ _ (by omega)
  · intro a c h
    rw [S.setX_mem]

theorem destVal_setR (w w2 d v : Nat) (p : BeParam) (t : S)
    (hpw : p.wf) (hd : d < 19 ∨ 26 < d) :
    destVal w (t.setR w2 d v) p = destVal w t p := by
  refine destVal_stable w p t _ ?_ ?_
  · intro i hi
    subst hi
    unfold BeParam.wf at hpw
    exact S.getX_setR_ne _ _ _ _ _ (by omega)
  · intro a c h
    rw [S.setR_mem]

theorem destVal_mov_reg_param (w w2 d : Nat) (p p2 : BeParam) (t : S)
    (hpw : p.wf) (hd : d < 19 ∨ 26 < d) :
    destVal w (mov_reg_param w2 d p2 t) p = destVal w t p := by
  refine destVal_stable w p t _ ?_ ?_
  · intro i hi
    subst hi
    unfold BeParam.wf at hpw
    exact mov_reg_param_getX_other _ _ _ _ _ (by omega)
  · intro a c h
    rw [mov_reg_param_mem]

/-- C2: op_div (DIVU at sdiv = false, DIVS at sdiv = true): a zero
divisor - the immediate 0, caught at generation time, or a runtime zero
read from the divisor parameter and caught by the cbz - sets the native
V flag and leaves both destination parameters untouched; a nonzero
divisor stores the udiv/sdiv quotient to the quotient destination and,
when the two destinations differ, stores dividend minus quotient times
divisor (the msub result) to the remainder destination. -/
theorem C2_div (sdiv : Bool) (w fl : Nat) (dstp edstp src1p src2p : BeParam) (s : S)
    (hw : w = 4 ∨ w = 8)
    (hdw : dstp.wf) (hew : edstp.wf) (h1w : src1p.wf) (h2w : src2p.wf)
    (hdm : ¬dstp.isImm = true) (hem : ¬edstp.isImm = true)
    (hsep : memDisjoint w dstp edstp) :
    (paramVal w s src2p = 0 →
      (op_div sdiv w fl dstp edstp src1p src2p s).v = true ∧
      destVal w (op_div sdiv w fl dstp edstp src1p src2p s) dstp = destVal w s dstp ∧
      destVal w (op_div sdiv w fl dstp edstp src1p src2p s) edstp = destVal w s edstp) ∧
    (paramVal w s src2p ≠ 0 →
      destVal w (op_div sdiv w fl dstp edstp src1p src2p s) dstp =
        (if sdiv then sdivVal (w * 8) (paramVal w s src1p) (paramVal w s src2p)
         else udivVal (w * 8) (paramVal w s src1p) (paramVal w s src2p)) ∧
      (dstp.peq edstp = false →
        destVal w (op_div sdiv w fl dstp edstp src1p src2p s) edstp =
          msubVal (w * 8)
            (if sdiv then sdivVal (w * 8) (paramVal w s src1p) (paramVal w s src2p)
             else udivVal (w * 8) (paramVal w s src1p) (paramVal w s src2p))
            (paramVal w s src2p) (paramVal w s src1p))) := by
  by_cases hz0 : src2p = BeParam.imm 0
  · subst hz0
    have hb0 : paramVal w s (BeParam.imm 0) = 0 := by
      rcases hw with rfl | rfl <;> simp [paramVal]
    constructor
    · intro _
      have hop : op_div sdiv w fl dstp edstp src1p (BeParam.imm 0) s =
          { S.msrNZCV ((s.setX SCRATCH_REG1 (1 <<< 28)).getX SCRATCH_REG1)
              (s.setX SCRATCH_REG1 (1 <<< 28)) with
            carry := CarryState.POISON } := by
        unfold op_div
        dsimp only
        rw [if_neg (by decide)]
      refine ⟨?_, ?_, ?_⟩
      · rw [hop]
        show ((s.setX SCRATCH_REG1 (1 <<< 28)).getX SCRATCH_REG1).testBit 28 = true
        rw [S.getX_setX_same _ _ _ (by decide)]
        decide
      · rw [hop, destVal_carry, destVal_msrNZCV,
          destVal_setX _ _ _ _ _ hdw (by unfold SCRATCH_REG1; omega)]
      · rw [hop, destVal_carry, destVal_msrNZCV,
          destVal_setX _ _ _ _ _ hew (by unfold SCRATCH_REG1; omega)]
    · intro hb
      exact absurd hb0 hb
  · have hcond : (!src2p.isImm || (src2p.isImm && !src2p.isImmValue 0)) = true := by
      cases src2p with
      | imm v =>
          have hv : v ≠ 0 := fun h => hz0 (by rw [h])
          simp [BeParam.isImm, BeParam.isImmValue, hv]
      | intReg i => rfl
      | mem a c => rfl
    have h1 : (mov_reg_param w TEMP_REG2 src2p s).getR w TEMP_REG2 = paramVal w s src2p :=
      mov_reg_param_getR w TEMP_REG2 src2p s hw (by decide)
    have hdk : ∀ k : Nat, k < 19 → ∀ i, dstp = BeParam.intReg i → k ≠ i := by
      intro k hk i hi
      rw [hi] at hdw
      unfold BeParam.wf at hdw
      omega
    have hek : ∀ k : Nat, k < 19 → ∀ i, edstp = BeParam.intReg i → k ≠ i := by
      intro k hk i hi
      rw [hi] at hew
      unfold BeParam.wf at hew
      omega
    constructor
    · intro hb
      have hz : (mov_reg_param w TEMP_REG2 src2p s).getR w TEMP_REG2 = 0 := by
        rw [h1, hb]
      have hop : op_div sdiv w fl dstp edstp src1p src2p s =
          { S.msrNZCV
              (((mov_reg_param w TEMP_REG2 src2p s).setX SCRATCH_REG1
                  (1 <<< 28)).getX SCRATCH_REG1)
              ((mov_reg_param w TEMP_REG2 src2p s).setX SCRATCH_REG1 (1 <<< 28)) with
            carry := CarryState.POISON } := by
        unfold op_div
        dsimp only
        rw [if_pos hcond, if_pos hz]
      refine ⟨?_, ?_, ?_⟩
      · rw [hop]
        show (((mov_reg_param w TEMP_REG2 src2p s).setX SCRATCH_REG1
            (1 <<< 28)).getX SCRATCH_REG1).testBit 28 = true
        rw [S.getX_setX_same _ _ _ (by decide)]
        decide
      · rw [hop, destVal_carry, destVal_msrNZCV,
          destVal_setX _ _ _ _ _ hdw (by unfold SCRATCH_REG1; omega),
          destVal_mov_reg_param _ _ _ _ _ _ hdw (by unfold TEMP_REG2; omega)]
      · rw [hop, destVal_carry, destVal_msrNZCV,
          destVal_setX _ _ _ _ _ hew (by unfold SCRATCH_REG1; omega),
          destVal_mov_reg_param _ _ _ _ _ _ hew (by unfold TEMP_REG2; omega)]
    · intro hb
      have hbne : (mov_reg_param w TEMP_REG2 src2p s).getR w TEMP_REG2 ≠ 0 := by
        rw [h1]
        exact hb
      unfold op_div
      dsimp only
      rw [if_pos hcond, if_neg hbne]
      set s1 := mov_reg_param w TEMP_REG2 src2p s with hs1
      set s2 := mov_reg_param w TEMP_REG1 src1p s1 with hs2
      set a1 := paramVal w s src1p with ha1
      set b1 := paramVal w s src2p with hb1
      have h2a : s2.getR w TEMP_REG1 = a1 := by
        rw [hs2, mov_reg_param_getR w TEMP_REG1 src1p s1 hw (by decide)]
        refine paramVal_stable w src1p s s1 h1w ?_ ?_
        · rw [hs1, mov_reg_param_mem]
        · intro i hi1 hi2
          rw [hs1]
          exact mov_reg_param_getX_other _ _ _ _ _ (by unfold TEMP_REG2; omega)
      have h2b : s2.getR w TEMP_REG2 = b1 := by
        rw [hs2,
          S.getR_congr w TEMP_REG2 s1 _
            (mov_reg_param_getX_other _ _ _ _ _ (by unfold TEMP_REG1 TEMP_REG2; omega))]
        exact h1
      rw [h2a, h2b]
      set qv := (if sdiv = true then sdivVal (w * 8) a1 b1
        else udivVal (w * 8) a1 b1) with hqv
      have hqlt : qv < 2 ^ (w * 8) := by
        rw [hqv]
        split
        · exact sdivVal_lt _ _ _
        · exact udivVal_lt _ _ _
      set s3 := s2.setR w TEMP_REG3 qv with hs3
      set s4 := mov_param_reg w dstp TEMP_REG3 s3 with hs4
      have h3r : s3.getR w TEMP_REG3 = qv := by
        rw [hs3]
        exact S.getR_setR_same_w w TEMP_REG3 qv s2 hw (by decide) hqlt
      have h3x : s3.getX TEMP_REG3 = qv := by
        rw [hs3]
        exact S.getX_setR_same_w w TEMP_REG3 qv s2 hw (by decide) hqlt
      have h4d : destVal w s4 dstp = qv := by
        rw [hs4,
          destVal_mov_param_reg w dstp TEMP_REG3 s3 hw hdw hdm (by rw [h3x]; exact hqlt)]
        exact h3x
      have h4x3 : s4.getX TEMP_REG3 = s3.getX TEMP_REG3 := by
        rw [hs4]
        exact mov_param_reg_getX_other w dstp TEMP_REG3 TEMP_REG3 s3
          (hdk TEMP_REG3 (by decide))
      have h4x2 : s4.getX TEMP_REG2 = s3.getX TEMP_REG2 := by
        rw [hs4]
        exact mov_param_reg_getX_other w dstp TEMP_REG3 TEMP_REG2 s3
          (hdk TEMP_REG2 (by decide))
      have h4x1 : s4.getX TEMP_REG1 = s3.getX TEMP_REG1 := by
        rw [hs4]
        exact mov_param_reg_getX_other w dstp TEMP_REG3 TEMP_REG1 s3
          (hdk TEMP_REG1 (by decide))
      have h3x2 : s3.getX TEMP_REG2 = s2.getX TEMP_REG2 := by
        rw [hs3]
        exact S.getX_setR_ne _ _ _ _ _ (by decide)
      have h3x1 : s3.getX TEMP_REG1 = s2.getX TEMP_REG1 := by
        rw [hs3]
        exact S.getX_setR_ne _ _ _ _ _ (by decide)
      have h4r3 : s4.getR w TEMP_REG3 = qv := by
        rw [S.getR_congr w TEMP_REG3 s3 s4 h4x3]
        exact h3r
      have h4r2 : s4.getR w TEMP_REG2 = b1 := by
        rw [S.getR_congr w TEMP_REG2 s3 s4 h4x2, S.getR_congr w TEMP_REG2 s2 s3 h3x2]
        exact h2b
      have h4r1 : s4.getR w TEMP_REG1 = a1 := by
        rw [S.getR_congr w TEMP_REG1 s3 s4 h4x1, S.getR_congr w TEMP_REG1 s2 s3 h3x1]
        exact h2a
      rw [h4r3, h4r2, h4r1]
      have hmv : (s4.setR w TEMP_REG2 (msubVal (w * 8) qv b1 a1)).getX TEMP_REG2 =
          msubVal (w * 8) qv b1 a1 :=
        S.getX_setR_same_w w TEMP_REG2 _ s4 hw (by decide) (msubVal_lt _ _ _ _)
      constructor
      · by_cases hfl : fl ≠ 0
        · rw [destVal_carry, if_pos hfl, destVal_tstOp]
          by_cases hrem : (!(dstp.peq edstp)) = true
          · have hne : dstp.peq edstp = false := by simpa using hrem
            rw [if_pos hrem,
              destVal_after_other_store w dstp edstp TEMP_REG2 _ hdw hdm hem hne hsep,
              destVal_setR _ _ _ _ _ _ hdw (by unfold TEMP_REG2; omega)]
            exact h4d
          · rw [if_neg hrem]
            exact h4d
        · rw [destVal_carry, if_neg hfl]
          by_cases hrem : (!(dstp.peq edstp)) = true
          · have hne : dstp.peq edstp = false := by simpa using hrem
            rw [if_pos hrem,
              destVal_after_other_store w dstp edstp TEMP_REG2 _ hdw hdm hem hne hsep,
              destVal_setR _ _ _ _ _ _ hdw (by unfold TEMP_REG2; omega)]
            exact h4d
          · rw [if_neg hrem]
            exact h4d
      · intro hne
        have hrem : (!(dstp.peq edstp)) = true := by
          rw [hne]
          rfl
        by_cases hfl : fl ≠ 0
        · rw [destVal_carry, if_pos hfl, destVal_tstOp, if_pos hrem,
            destVal_mov_param_reg w edstp TEMP_REG2 _ hw hew hem
              (by rw [hmv]; exact msubVal_lt _ _ _ _)]
          exact hmv
        · rw [destVal_carry, if_neg hfl, if_pos hrem,
            destVal_mov_param_reg w edstp TEMP_REG2 _ hw hew hem
              (by rw [hmv]; exact msubVal_lt _ _ _ _)]
          exact hmv

theorem mov_reg_param_flag_n (w d : Nat) (p : BeParam) (t : S) :
    (mov_reg_param w d p t).n = t.n := by
  cases p <;> simp only [mov_reg_param] <;> (try split) <;> simp

theorem mov_reg_param_flag_z (w d : Nat) (p : BeParam) (t : S) :
    (mov_reg_param w d p t).z = t.z := by
  cases p <;> simp only [mov_reg_param] <;> (try split) <;> simp

theorem mov_reg_param_flag_c (w d : Nat) (p : BeParam) (t : S) :
    (mov_reg_param w d p t).c = t.c := by
  cases p <;> simp only [mov_reg_param] <;> (try split) <;> simp

theorem mov_reg_param_flag_v (w d : Nat) (p : BeParam) (t : S) :
    (mov_reg_param w d p t).v = t.v := by
  cases p <;> simp only [mov_reg_param] <;> (try split) <;> simp

theorem mov_param_reg_flag_n (w : Nat) (p : BeParam) (src : Nat) (t : S) :
    (mov_param_reg w p src t).n = t.n := by
  cases p <;> simp only [mov_param_reg] <;> (try split) <;> simp

theorem mov_param_reg_flag_z (w : Nat) (p : BeParam) (src : Nat) (t : S) :
    (mov_param_reg w p src t).z = t.z := by
  cases p <;> simp only [mov_param_reg] <;> (try split) <;> simp

theorem mov_param_reg_flag_c (w : Nat) (p : BeParam) (src : Nat) (t : S) :
    (mov_param_reg w p src t).c = t.c := by
  cases p <;> simp only [mov_param_reg] <;> (try split) <;> simp

theorem mov_param_reg_flag_v (w : Nat) (p : BeParam) (src : Nat) (t : S) :
    (mov_param_reg w p src t).v = t.v := by
  cases p <;> simp only [mov_param_reg] <;> (try split) <;> simp

theorem mov_param_reg_getX28 (w : Nat) (p : BeParam) (src : Nat) (t : S)
    (hp : p.wf) : (mov_param_reg w p src t).getX FLAGS_REG = t.getX FLAGS_REG :=
  mov_param_reg_getX_other _ _ _ _ _ (fun i hi => by
    rw [hi] at hp
    unfold BeParam.wf at hp
    unfold FLAGS_REG
    omega)

theorem mov_reg_param_sel_getX_other (w d k : Nat) (p : BeParam) (t : S)
    (hp : p.wf) (hd : d ≠ k) (hk : k < 19 ∨ 26 < k) :
    (mov_reg_param w (p.selectReg d) p t).getX k = t.getX k :=
  mov_reg_param_getX_other _ _ _ _ _ (Ne.symm (BeParam.selectReg_ne p d k hp hd hk))

theorem mov_reg_param_sel_getX_1926 (w d k : Nat) (p : BeParam) (t : S)
    (hd : d < 19 ∨ 26 < d) (hk : 19 ≤ k ∧ k ≤ 26) :
    (mov_reg_param w (p.selectReg d) p t).getX k = t.getX k := by
  cases p with
  | intReg i =>
      by_cases hik : i = k
      · subst hik
        show (if i ≠ i then t.setR w i (t.getR w i) else t).getX i = t.getX i
        rw [if_neg (by omega)]
      · exact mov_reg_param_getX_other _ _ _ _ _ (Ne.symm hik)
  | imm v => exact mov_reg_param_getX_other _ _ _ _ _ (show k ≠ d by omega)
  | mem a c => exact mov_reg_param_getX_other _ _ _ _ _ (show k ≠ d by omega)

theorem nzcvVal_bit31 (t : S) : t.nzcvVal.testBit 31 = t.n := by
  unfold S.nzcvVal
  cases hn : t.n <;> cases hz : t.z <;> cases hc : t.c <;> cases hv : t.v <;> decide

theorem nzcvVal_bit30 (t : S) : t.nzcvVal.testBit 30 = t.z := by
  unfold S.nzcvVal
  cases hn : t.n <;> cases hz : t.z <;> cases hc : t.c <;> cases hv : t.v <;> decide

theorem nzcvVal_bit28 (t : S) : t.nzcvVal.testBit 28 = t.v := by
  unfold S.nzcvVal
  cases hn : t.n <;> cases hz : t.z <;> cases hc : t.c <;> cases hv : t.v <;> decide

theorem bfi64_29_bit31 (old src : Nat) :
    (bfi64 old src 29 1).testBit 31 = old.testBit 31 := by
  simp only [bfi64, Nat.testBit_to_div_mod]
  norm_num
  omega

theorem bfi64_29_bit30 (old src : Nat) :
    (bfi64 old src 29 1).testBit 30 = old.testBit 30 := by
  simp only [bfi64, Nat.testBit_to_div_mod]
  norm_num
  omega

theorem bfi64_29_bit28 (old src : Nat) :
    (bfi64 old src 29 1).testBit 28 = old.testBit 28 := by
  simp only [bfi64, Nat.testBit_to_div_mod]
  norm_num
  omega

theorem msrNZCV_getX (v k : Nat) (t : S) : (S.msrNZCV v t).getX k = t.getX k := rfl

theorem store_carry_reg_flag_n (r : Nat) (t : S) : (store_carry_reg r t).n = t.n := rfl

theorem store_carry_reg_flag_z (r : Nat) (t : S) : (store_carry_reg r t).z = t.z := rfl

theorem store_carry_reg_flag_c (r : Nat) (t : S) : (store_carry_reg r t).c = t.c := rfl

theorem store_carry_reg_flag_v (r : Nat) (t : S) : (store_carry_reg r t).v = t.v := rfl

theorem store_carry_reg_bit4 (r : Nat) (t : S) :
    ((store_carry_reg r t).getX FLAGS_REG).testBit 4 = (t.getX FLAGS_REG).testBit 4 := by
  unfold store_carry_reg S.bfiReg
  rw [S.getX_setX_same _ _ _ (by decide), Nat.testBit_mod_two_pow, bfi64_bit0_bit4]
  norm_num

theorem store_carry_reg_bit0 (r : Nat) (t : S) :
    ((store_carry_reg r t).getX FLAGS_REG).testBit 0 = decide (t.getX r % 2 = 1) := by
  unfold store_carry_reg S.bfiReg
  rw [S.getX_setX_same _ _ _ (by decide), Nat.testBit_mod_two_pow, bfi64_bit0]
  norm_num

theorem store_carry_flag_n (inv : Bool) (t : S) : (store_carry inv t).n = t.n := by
  unfold store_carry S.cset
  dsimp only
  rw [store_carry_reg_flag_n]
  rfl

theorem store_carry_flag_z (inv : Bool) (t : S) : (store_carry inv t).z = t.z := by
  unfold store_carry S.cset
  dsimp only
  rw [store_carry_reg_flag_z]
  rfl

theorem store_carry_flag_c (inv : Bool) (t : S) : (store_carry inv t).c = t.c := by
  unfold store_carry S.cset
  dsimp only
  rw [store_carry_reg_flag_c]
  rfl

theorem store_carry_flag_v (inv : Bool) (t : S) : (store_carry inv t).v = t.v := by
  unfold store_carry S.cset
  dsimp only
  rw [store_carry_reg_flag_v]
  rfl

theorem store_carry_carry (inv : Bool) (t : S) :
    (store_carry inv t).carry = (if inv then CarryState.LOGICAL else CarryState.CANONICAL) := by
  unfold store_carry store_carry_reg S.bfiReg S.cset
  dsimp only
  rfl

theorem store_carry_bit0 (inv : Bool) (t : S) :
    ((store_carry inv t).getX FLAGS_REG).testBit 0 = (if inv then !t.c else t.c) := by
  unfold store_carry S.cset
  dsimp only
  rw [store_carry_reg_bit0, S.getX_setX_same _ _ _ (by decide)]
  cases hc : t.c <;> cases inv <;> simp

theorem store_carry_bit4 (inv : Bool) (t : S) :
    ((store_carry inv t).getX FLAGS_REG).testBit 4 = (t.getX FLAGS_REG).testBit 4 := by
  unfold store_carry S.cset
  dsimp only
  rw [store_carry_reg_bit4, S.getX_setX_ne _ _ _ _ (by decide)]
  rfl

theorem store_carry_getX28 (inv : Bool) (t : S) :
    (store_carry inv t).getX FLAGS_REG =
      (bfi64 (t.getX FLAGS_REG) ((if inv then !t.c else t.c).toNat) 0 1) % 2 ^ 64 := by
  unfold store_carry store_carry_reg S.bfiReg S.cset
  dsimp only
  rw [S.getX_setX_same _ _ _ (by decide), S.getX_setX_ne _ _ _ _ (by decide),
    S.getX_setX_same _ _ _ (by decide)]
  cases inv <;> cases t.c <;> rfl

theorem load_carry_getX28 (inv : Bool) (t : S) :
    (load_carry inv t).getX FLAGS_REG = t.getX FLAGS_REG := by
  unfold load_carry S.bfiReg
  dsimp only
  cases inv <;>
    simp only [Bool.false_eq_true, eq_self_iff_true, if_false, if_true] <;> split
  · rw [msrNZCV_getX, S.getX_setX_ne _ _ _ _ (by decide),
      S.getX_setX_ne _ _ _ _ (by decide)]
    rfl
  · rfl
  · rw [msrNZCV_getX, S.getX_setX_ne _ _ _ _ (by decide),
      S.getX_setX_ne _ _ _ _ (by decide), S.getX_setX_ne _ _ _ _ (by decide)]
    rfl
  · rfl

theorem load_carry_n (inv : Bool) (t : S) : (load_carry inv t).n = t.n := by
  unfold load_carry S.bfiReg S.msrNZCV
  dsimp only
  cases inv <;>
    simp only [Bool.false_eq_true, eq_self_iff_true, if_false, if_true] <;> split
  · dsimp only
    rw [S.getX_setX_same _ _ _ (by decide), S.getX_setX_same _ _ _ (by decide),
      Nat.testBit_mod_two_pow, bfi64_29_bit31, Nat.testBit_mod_two_pow,
      nzcvVal_bit31]
    simp
  · rfl
  · dsimp only
    rw [S.getX_setX_same _ _ _ (by decide), S.getX_setX_same _ _ _ (by decide),
      S.getX_setX_same _ _ _ (by decide), Nat.testBit_mod_two_pow,
      Nat.testBit_xor, Nat.testBit_mod_two_pow, bfi64_29_bit31,
      Nat.testBit_mod_two_pow, nzcvVal_bit31]
    simp [show Nat.testBit 536870912 31 = false by decide]
  · rfl

theorem load_carry_z (inv : Bool) (t : S) : (load_carry inv t).z = t.z := by
  unfold load_carry S.bfiReg S.msrNZCV
  dsimp only
  cases inv <;>
    simp only [Bool.false_eq_true, eq_self_iff_true, if_false, if_true] <;> split
  · dsimp only
    rw [S.getX_setX_same _ _ _ (by decide), S.getX_setX_same _ _ _ (by decide),
      Nat.testBit_mod_two_pow, bfi64_29_bit30, Nat.testBit_mod_two_pow,
      nzcvVal_bit30]
    simp
  · rfl
  · dsimp only
    rw [S.getX_setX_same _ _ _ (by decide), S.getX_setX_same _ _ _ (by decide),
      S.getX_setX_same _ _ _ (by decide), Nat.testBit_mod_two_pow,
      Nat.testBit_xor, Nat.testBit_mod_two_pow, bfi64_29_bit30,
      Nat.testBit_mod_two_pow, nzcvVal_bit30]
    simp [show Nat.testBit 536870912 30 = false by decide]
  · rfl

theorem load_carry_v (inv : Bool) (t : S) : (load_carry inv t).v = t.v := by
  unfold load_carry S.bfiReg S.msrNZCV
  dsimp only
  cases inv <;>
    simp only [Bool.false_eq_true, eq_self_iff_true, if_false, if_true] <;> split
  · dsimp only
    rw [S.getX_setX_same _ _ _ (by decide), S.getX_setX_same _ _ _ (by decide),
      Nat.testBit_mod_two_pow, bfi64_29_bit28, Nat.testBit_mod_two_pow,
      nzcvVal_bit28]
    simp
  · rfl
  · dsimp only
    rw [S.getX_setX_same _ _ _ (by decide), S.getX_setX_same _ _ _ (by decide),
      S.getX_setX_same _ _ _ (by decide), Nat.testBit_mod_two_pow,
      Nat.testBit_xor, Nat.testBit_mod_two_pow, bfi64_29_bit28,
      Nat.testBit_mod_two_pow, nzcvVal_bit28]
    simp [show Nat.testBit 536870912 28 = false by decide]
  · rfl

theorem calculate_carry_shift_left_imm_flags (w reg sh maxBits : Nat) (t : S) :
    (calculate_carry_shift_left_imm w reg sh maxBits t).n = t.n ∧
    (calculate_carry_shift_left_imm w reg sh maxBits t).z = t.z ∧
    (calculate_carry_shift_left_imm w reg sh maxBits t).c = t.c ∧
    (calculate_carry_shift_left_imm w reg sh maxBits t).v = t.v := by
  unfold calculate_carry_shift_left_imm store_carry_reg S.bfiReg
  dsimp only
  split <;> simp

theorem calculate_carry_shift_right_imm_flags (w reg sh : Nat) (t : S) :
    (calculate_carry_shift_right_imm w reg sh t).n = t.n ∧
    (calculate_carry_shift_right_imm w reg sh t).z = t.z ∧
    (calculate_carry_shift_right_imm w reg sh t).c = t.c ∧
    (calculate_carry_shift_right_imm w reg sh t).v = t.v := by
  unfold calculate_carry_shift_right_imm store_carry_reg S.bfiReg
  dsimp only
  split <;> simp

theorem calculate_carry_shift_left_flags (w reg shift maxBits : Nat) (t : S) :
    (calculate_carry_shift_left w reg shift maxBits t).n = t.n ∧
    (calculate_carry_shift_left w reg shift maxBits t).z = t.z ∧
    (calculate_carry_shift_left w reg shift maxBits t).c = t.c ∧
    (calculate_carry_shift_left w reg shift maxBits t).v = t.v := by
  unfold calculate_carry_shift_left store_carry_reg S.bfiReg
  dsimp only
  split <;> simp

theorem calculate_carry_shift_right_flags (w reg shift : Nat) (t : S) :
    (calculate_carry_shift_right w reg shift t).n = t.n ∧
    (calculate_carry_shift_right w reg shift t).z = t.z ∧
    (calculate_carry_shift_right w reg shift t).c = t.c ∧
    (calculate_carry_shift_right w reg shift t).v = t.v := by
  unfold calculate_carry_shift_right store_carry_reg S.bfiReg
  dsimp only
  split <;> simp

theorem calculate_carry_shift_left_imm_bit4 (w reg sh maxBits : Nat) (t : S) :
    ((calculate_carry_shift_left_imm w reg sh maxBits t).getX FLAGS_REG).testBit 4 =
      (t.getX FLAGS_REG).testBit 4 := by
  unfold calculate_carry_shift_left_imm
  dsimp only
  split
  · rw [store_carry_reg_bit4]
    rfl
  · rw [store_carry_reg_bit4, S.getX_setR_ne _ _ _ _ _ (by decide)]
    rfl

theorem calculate_carry_shift_right_imm_bit4 (w reg sh : Nat) (t : S) :
    ((calculate_carry_shift_right_imm w reg sh t).getX FLAGS_REG).testBit 4 =
      (t.getX FLAGS_REG).testBit 4 := by
  unfold calculate_carry_shift_right_imm
  dsimp only
  split
  · rw [store_carry_reg_bit4]
    rfl
  · rw [store_carry_reg_bit4, S.getX_setR_ne _ _ _ _ _ (by decide)]
    rfl

theorem calculate_carry_shift_left_bit4 (w reg shift maxBits : Nat) (t : S) :
    ((calculate_carry_shift_left w reg shift maxBits t).getX FLAGS_REG).testBit 4 =
      (t.getX FLAGS_REG).testBit 4 := by
  unfold calculate_carry_shift_left
  dsimp only
  split
  · rw [store_carry_reg_bit4, S.getX_setR_ne _ _ _ _ _ (by decide),
      S.getX_setR_ne _ _ _ _ _ (by decide), S.getX_setR_ne _ _ _ _ _ (by decide)]
    rfl
  · rw [store_carry_reg_bit4]
    rfl

theorem calculate_carry_shift_right_bit4 (w reg shift : Nat) (t : S) :
    ((calculate_carry_shift_right w reg shift t).getX FLAGS_REG).testBit 4 =
      (t.getX FLAGS_REG).testBit 4 := by
  unfold calculate_carry_shift_right
  dsimp only
  split
  · rw [store_carry_reg_bit4, S.getX_setR_ne _ _ _ _ _ (by decide),
      S.getX_setR_ne _ _ _ _ _ (by decide)]
    rfl
  · rw [store_carry_reg_bit4]
    rfl

theorem calculate_carry_shift_left_imm_bit0 (w reg sh maxBits : Nat) (t : S)
    (hw : w = 4 ∨ w = 8) (hmax : maxBits = w * 8 - 1) (hsh : sh < w * 8) :
    ((calculate_carry_shift_left_imm w reg sh maxBits t).getX FLAGS_REG).testBit 0 =
      (if sh = 0 then false else (t.getR w reg).testBit (w * 8 - sh)) := by
  unfold calculate_carry_shift_left_imm
  dsimp only
  split
  case isTrue h =>
    rw [store_carry_reg_bit0]
    simp [S.getX]
  case isFalse h =>
    rw [store_carry_reg_bit0]
    have harg : t.getR w reg % 2 ^ (w * 8) = t.getR w reg :=
      Nat.mod_eq_of_lt (S.getR_lt_w w reg t hw)
    have hshlt : maxBits + 1 - sh < w * 8 := by omega
    have hval : shiftVal ShiftKind.lsr (w * 8)
        (S.getR w { t with carry := CarryState.POISON } reg) (maxBits + 1 - sh) =
        t.getR w reg >>> (w * 8 - sh) := by
      show shiftVal ShiftKind.lsr (w * 8) (t.getR w reg) (maxBits + 1 - sh) =
        t.getR w reg >>> (w * 8 - sh)
      unfold shiftVal
      dsimp only
      rw [harg, Nat.mod_eq_of_lt hshlt]
      congr 1
      omega
    rw [hval]
    rw [S.getX_setR_same_w w SCRATCH_REG1 _ _ hw (by decide) (by
      calc t.getR w reg >>> (w * 8 - sh) ≤ t.getR w reg := by
            rw [Nat.shiftRight_eq_div_pow]
            exact Nat.div_le_self _ _
        _ < 2 ^ (w * 8) := S.getR_lt_w w reg t hw)]
    rw [Nat.shiftRight_eq_div_pow, ← Nat.testBit_to_div_mod]

theorem calculate_carry_shift_right_imm_bit0 (w reg sh : Nat) (t : S)
    (hw : w = 4 ∨ w = 8) (hsh : sh < w * 8) :
    ((calculate_carry_shift_right_imm w reg sh t).getX FLAGS_REG).testBit 0 =
      (if sh = 0 then false else (t.getR w reg).testBit (sh - 1)) := by
  unfold calculate_carry_shift_right_imm
  dsimp only
  split
  case isTrue h =>
    rw [store_carry_reg_bit0]
    simp [S.getX]
  case isFalse h =>
    rw [store_carry_reg_bit0]
    have harg : t.getR w reg % 2 ^ (w * 8) = t.getR w reg :=
      Nat.mod_eq_of_lt (S.getR_lt_w w reg t hw)
    have hval : shiftVal ShiftKind.lsr (w * 8)
        (S.getR w { t with carry := CarryState.POISON } reg) (sh - 1) =
        t.getR w reg >>> (sh - 1) := by
      show shiftVal ShiftKind.lsr (w * 8) (t.getR w reg) (sh - 1) =
        t.getR w reg >>> (sh - 1)
      unfold shiftVal
      dsimp only
      rw [harg, Nat.mod_eq_of_lt (by omega)]
    rw [hval]
    rw [S.getX_setR_same_w w SCRATCH_REG1 _ _ hw (by decide) (by
      calc t.getR w reg >>> (sh - 1) ≤ t.getR w reg := by
            rw [Nat.shiftRight_eq_div_pow]
            exact Nat.div_le_self _ _
        _ < 2 ^ (w * 8) := S.getR_lt_w w reg t hw)]
    rw [Nat.shiftRight_eq_div_pow, ← Nat.testBit_to_div_mod]

theorem mov_reg_param_getR_select (w d : Nat) (p : BeParam) (t : S)
    (hw : w = 4 ∨ w = 8) (hd : d ≠ 31) :
    (mov_reg_param w (p.selectReg d) p t).getR w (p.selectReg d) = paramVal w t p := by
  cases p with
  | imm v => exact mov_reg_param_getR w d (.imm v) t hw hd
  | intReg i =>
      show (if i ≠ i then t.setR w i (t.getR w i) else t).getR w i = t.getR w i
      rw [if_neg (by omega)]
  | mem a c => exact mov_reg_param_getR w d (.mem a c) t hw hd

theorem cmp_flags_core (w A B : Nat) (t : S) (hw : w = 4 ∨ w = 8)
    (hA : A < 2 ^ (w * 8)) (hB : B < 2 ^ (w * 8)) :
    (store_carry true (S.subOp true w 31 A B true t)).z = decide (A = B) ∧
    ((store_carry true (S.subOp true w 31 A B true t)).getX FLAGS_REG).testBit 0 =
      decide (A < B) ∧
    (store_carry true (S.subOp true w 31 A B true t)).carry = CarryState.LOGICAL := by
  have hz : (S.subOp true w 31 A B true t).z = decide (A = B) := by
    unfold S.subOp subCore addCore
    dsimp only
    rcases hw with rfl | rfl <;>
      · norm_num at hA hB ⊢
        rw [Nat.mod_eq_of_lt hA, Nat.mod_eq_of_lt hB]
        rcases Nat.lt_or_ge A B with h | h <;>
          · first
              | (rw [decide_eq_decide.mpr (show _ ↔ A = B by omega)])
              | skip
            congr 1
            omega
  have hc : (S.subOp true w 31 A B true t).c = decide (B ≤ A) := by
    unfold S.subOp subCore addCore
    dsimp only
    rcases hw with rfl | rfl <;>
      · norm_num at hA hB ⊢
        rw [Nat.mod_eq_of_lt hA, Nat.mod_eq_of_lt hB]
        congr 1
        omega
  refine ⟨?_, ?_, ?_⟩
  · rw [store_carry_flag_z, hz]
  · rw [store_carry_bit0, hc]
    rcases Nat.lt_or_ge A B with h | h
    · rw [decide_eq_false (by omega), decide_eq_true h]
      rfl
    · rw [decide_eq_true h, decide_eq_false (by omega)]
      rfl
  · rw [store_carry_carry]
    rfl

theorem mov_reg_param_self (w i : Nat) (t : S) :
    mov_reg_param w i (.intReg i) t = t := by
  show (if i ≠ i then t.setR w i (t.getR w i) else t) = t
  rw [if_neg (by omega)]

theorem is_valid_immediate_addsub_lt (v : Nat)
    (h : is_valid_immediate_addsub v = true) : v < 2 ^ 24 := by
  unfold is_valid_immediate_addsub at h
  simp only [Bool.or_eq_true, beq_iff_eq] at h
  rcases h with h | h
  · have hle := @Nat.and_le_right v (bmask 12)
    rw [h] at hle
    norm_num [bmask] at hle
    omega
  · have hle := @Nat.and_le_right v (bmask 12 <<< 12)
    rw [h] at hle
    norm_num [bmask] at hle
    omega

theorem op_cmp_flags (w : Nat) (src1p src2p : BeParam) (s : S)
    (hw : w = 4 ∨ w = 8) (h1w : src1p.wf) (h2w : src2p.wf) :
    (op_cmp w src1p src2p s).z =
      decide (paramVal w s src1p = paramVal w s src2p) ∧
    ((op_cmp w src1p src2p s).getX FLAGS_REG).testBit 0 =
      decide (paramVal w s src1p < paramVal w s src2p) ∧
    (op_cmp w src1p src2p s).carry = CarryState.LOGICAL := by
  have hsel1 : (mov_reg_param w (src1p.selectReg TEMP_REG1) src1p s).getR w
      (src1p.selectReg TEMP_REG1) = paramVal w s src1p :=
    mov_reg_param_getR_select w TEMP_REG1 src1p s hw (by decide)
  have hA := paramVal_lt w s src1p hw
  have hB := paramVal_lt w s src2p hw
  have hsrc1ne10 : src1p.selectReg TEMP_REG1 ≠ TEMP_REG2 :=
    BeParam.selectReg_ne src1p TEMP_REG1 TEMP_REG2 h1w (by decide)
      (Or.inl (by decide))
  unfold op_cmp
  dsimp only
  set s1 := mov_reg_param w (src1p.selectReg TEMP_REG1) src1p s with hs1
  have hstab : ∀ p2 : BeParam, p2.wf → paramVal w s1 p2 = paramVal w s p2 :=
    fun p2 h2 =>
    paramVal_stable w p2 s s1 h2
      (by rw [hs1, mov_reg_param_mem])
      (fun i hi1 hi2 => by
        rw [hs1]
        exact mov_reg_param_sel_getX_1926 w TEMP_REG1 i src1p s
          (Or.inl (by decide)) ⟨hi1, hi2⟩)
  cases src2p with
  | imm v =>
      dsimp only
      by_cases hvi : is_valid_immediate_addsub v = true
      · rw [if_pos hvi]
        by_cases hv0 : v = 0
        · subst hv0
          rw [if_pos rfl]
          have hB0 : s1.getR w 31 = paramVal w s (BeParam.imm 0) := by
            rcases hw with rfl | rfl <;> simp [S.getR, S.getX, paramVal]
          rw [hsel1, hB0]
          exact cmp_flags_core w _ _ _ hw hA hB
        · rw [if_neg hv0]
          have hv24 : v < 2 ^ (w * 8) := by
            have := is_valid_immediate_addsub_lt v hvi
            rcases hw with rfl | rfl <;> norm_num at this ⊢ <;> omega
          have hpv : paramVal w s (BeParam.imm v) = v := by
            rcases hw with rfl | rfl <;>
              simp only [paramVal, if_pos rfl,
                if_neg (by omega : ¬(8 : Nat) = 4)] <;>
              norm_num at hv24 ⊢ <;> omega
          rw [hsel1, hpv]
          exact cmp_flags_core w _ _ _ hw hA hv24
      · rw [if_neg hvi]
        have hsel2 : (BeParam.imm v).selectReg TEMP_REG2 = TEMP_REG2 := rfl
        rw [hsel2]
        have hA2 : (mov_reg_param w TEMP_REG2 (BeParam.imm v) s1).getR w
            (src1p.selectReg TEMP_REG1) = paramVal w s src1p := by
          rw [S.getR_congr w _ s1 _
            (mov_reg_param_getX_other _ _ _ _ _ hsrc1ne10)]
          exact hsel1
        have hB2 : (mov_reg_param w TEMP_REG2 (BeParam.imm v) s1).getR w TEMP_REG2 =
            paramVal w s (BeParam.imm v) :=
          mov_reg_param_getR w TEMP_REG2 (BeParam.imm v) s1 hw (by decide)
        rw [hA2, hB2]
        exact cmp_flags_core w _ _ _ hw hA hB
  | intReg j =>
      dsimp only
      have hsel2 : (BeParam.intReg j).selectReg TEMP_REG2 = j := rfl
      rw [hsel2, mov_reg_param_self]
      have hBj : s1.getR w j = paramVal w s (BeParam.intReg j) :=
        hstab (.intReg j) h2w
      rw [hsel1, hBj]
      exact cmp_flags_core w _ _ _ hw hA hB
  | mem a c =>
      dsimp only
      have hsel2 : (BeParam.mem a c).selectReg TEMP_REG2 = TEMP_REG2 := rfl
      rw [hsel2]
      have hA2 : (mov_reg_param w TEMP_REG2 (BeParam.mem a c) s1).getR w
          (src1p.selectReg TEMP_REG1) = paramVal w s src1p := by
        rw [S.getR_congr w _ s1 _
          (mov_reg_param_getX_other _ _ _ _ _ hsrc1ne10)]
        exact hsel1
      have hB2 : (mov_reg_param w TEMP_REG2 (BeParam.mem a c) s1).getR w TEMP_REG2 =
          paramVal w s (BeParam.mem a c) := by
        rw [mov_reg_param_getR w TEMP_REG2 (BeParam.mem a c) s1 hw (by decide)]
        exact hstab (.mem a c) h2w
      rw [hA2, hB2]
      exact cmp_flags_core w _ _ _ hw hA hB

theorem visFlags_mov_param_reg (w : Nat) (p : BeParam) (src : Nat) (t : S)
    (hp : p.wf) : visFlags (mov_param_reg w p src t) = visFlags t := by
  unfold visFlags
  rw [mov_param_reg_flag_n, mov_param_reg_flag_z, mov_param_reg_flag_v,
    mov_param_reg_getX28 _ _ _ _ hp]

theorem visFlags_mov_reg_param (w d : Nat) (p : BeParam) (t : S)
    (hd : d ≠ FLAGS_REG) : visFlags (mov_reg_param w d p t) = visFlags t := by
  unfold visFlags
  rw [mov_reg_param_flag_n, mov_reg_param_flag_z, mov_reg_param_flag_v,
    mov_reg_param_getX_other _ _ _ _ _ (Ne.symm hd)]

theorem visFlags_setR (w r v : Nat) (t : S) (hr : r ≠ FLAGS_REG) :
    visFlags (t.setR w r v) = visFlags t := by
  unfold visFlags
  rw [S.getX_setR_ne _ _ _ _ _ (Ne.symm hr)]
  simp

theorem visFlags_addOp_false (w rd a b : Nat) (cin : Bool) (t : S)
    (hrd : rd ≠ FLAGS_REG) :
    visFlags (S.addOp false w rd a b cin t) = visFlags t := by
  unfold S.addOp
  dsimp only
  simp only [Bool.false_eq_true, if_false]
  exact visFlags_setR _ _ _ _ hrd

theorem visFlags_subOp_false (w rd a b : Nat) (cin : Bool) (t : S)
    (hrd : rd ≠ FLAGS_REG) :
    visFlags (S.subOp false w rd a b cin t) = visFlags t := by
  unfold S.subOp
  dsimp only
  simp only [Bool.false_eq_true, if_false]
  exact visFlags_setR _ _ _ _ hrd

theorem visFlags_movOp (w rd v : Nat) (t : S) (hrd : rd ≠ FLAGS_REG) :
    visFlags (S.movOp w rd v t) = visFlags t :=
  visFlags_setR _ _ _ _ hrd

theorem visFlags_load_carry (inv : Bool) (t : S) :
    visFlags (load_carry inv t) = visFlags t := by
  unfold visFlags
  rw [load_carry_n, load_carry_z, load_carry_v, load_carry_getX28]

/-- op_add / op_addc with an empty flag mask preserves the GETFLGS-visible
flag state. -/
theorem op_add_vis (carryIn : Bool) (w : Nat) (dstp src1p src2p : BeParam) (s : S)
    (hdw : dstp.wf) (h1w : src1p.wf) (h2w : src2p.wf) :
    visFlags (op_add carryIn w 0 dstp src1p src2p s) = visFlags s := by
  have houtput : dstp.selectReg TEMP_REG3 ≠ FLAGS_REG :=
    BeParam.selectReg_ne dstp TEMP_REG3 FLAGS_REG hdw (by decide) (Or.inr (by decide))
  have hsel2out : src2p.selectReg (dstp.selectReg TEMP_REG3) ≠ FLAGS_REG :=
    BeParam.selectReg_ne src2p (dstp.selectReg TEMP_REG3) FLAGS_REG h2w houtput
      (Or.inr (by decide))
  have hsel1out : src1p.selectReg (dstp.selectReg TEMP_REG3) ≠ FLAGS_REG :=
    BeParam.selectReg_ne src1p (dstp.selectReg TEMP_REG3) FLAGS_REG h1w houtput
      (Or.inr (by decide))
  have hs1T1 : src1p.selectReg TEMP_REG1 ≠ FLAGS_REG :=
    BeParam.selectReg_ne src1p TEMP_REG1 FLAGS_REG h1w (by decide) (Or.inr (by decide))
  have hs2T2 : src2p.selectReg TEMP_REG2 ≠ FLAGS_REG :=
    BeParam.selectReg_ne src2p TEMP_REG2 FLAGS_REG h2w (by decide) (Or.inr (by decide))
  unfold op_add
  dsimp only
  simp only [show (decide ((0 : Nat) ≠ 0)) = false from rfl]
  rw [if_neg (show ¬(0 : Nat) ≠ 0 by omega)]
  repeat' split
  all_goals
    repeat
      first
        | rw [visFlags_mov_param_reg _ _ _ _ hdw]
        | rw [visFlags_load_carry]
        | rw [visFlags_addOp_false _ _ _ _ _ _ houtput]
        | rw [visFlags_addOp_false _ _ _ _ _ _ (show (31 : Nat) ≠ FLAGS_REG by decide)]
        | rw [visFlags_movOp _ _ _ _ houtput]
        | rw [visFlags_mov_reg_param _ _ _ _ hsel2out]
        | rw [visFlags_mov_reg_param _ _ _ _ hsel1out]
        | rw [visFlags_mov_reg_param _ _ _ _ hs1T1]
        | rw [visFlags_mov_reg_param _ _ _ _ hs2T2]
        | rw [visFlags_mov_reg_param _ _ _ _ (show TEMP_REG1 ≠ FLAGS_REG by decide)]
        | rw [visFlags_mov_reg_param _ _ _ _ (show TEMP_REG2 ≠ FLAGS_REG by decide)]
  all_goals rfl

/-- op_sub / op_subb with an empty flag mask preserves the GETFLGS-visible
flag state. -/
theorem op_sub_vis (carryIn : Bool) (w : Nat) (dstp src1p src2p : BeParam) (s : S)
    (hdw : dstp.wf) (h1w : src1p.wf) (h2w : src2p.wf) :
    visFlags (op_sub carryIn w 0 dstp src1p src2p s) = visFlags s := by
  have houtput : dstp.selectReg TEMP_REG3 ≠ FLAGS_REG :=
    BeParam.selectReg_ne dstp TEMP_REG3 FLAGS_REG hdw (by decide) (Or.inr (by decide))
  have hsel2out : src2p.selectReg (dstp.selectReg TEMP_REG3) ≠ FLAGS_REG :=
    BeParam.selectReg_ne src2p (dstp.selectReg TEMP_REG3) FLAGS_REG h2w houtput
      (Or.inr (by decide))
  have hsel1out : src1p.selectReg (dstp.selectReg TEMP_REG3) ≠ FLAGS_REG :=
    BeParam.selectReg_ne src1p (dstp.selectReg TEMP_REG3) FLAGS_REG h1w houtput
      (Or.inr (by decide))
  have hs1T1 : src1p.selectReg TEMP_REG1 ≠ FLAGS_REG :=
    BeParam.selectReg_ne src1p TEMP_REG1 FLAGS_REG h1w (by decide) (Or.inr (by decide))
  have hs2T2 : src2p.selectReg TEMP_REG2 ≠ FLAGS_REG :=
    BeParam.selectReg_ne src2p TEMP_REG2 FLAGS_REG h2w (by decide) (Or.inr (by decide))
  unfold op_sub
  dsimp only
  simp only [show (decide ((0 : Nat) ≠ 0)) = false from rfl]
  rw [if_neg (show ¬(0 : Nat) ≠ 0 by omega)]
  repeat' split
  all_goals
    repeat
      first
        | rw [visFlags_mov_param_reg _ _ _ _ hdw]
        | rw [visFlags_load_carry]
        | rw [visFlags_subOp_false _ _ _ _ _ _ houtput]
        | rw [visFlags_subOp_false _ _ _ _ _ _ (show (31 : Nat) ≠ FLAGS_REG by decide)]
        | rw [visFlags_movOp _ _ _ _ houtput]
        | rw [visFlags_mov_reg_param _ _ _ _ hsel2out]
        | rw [visFlags_mov_reg_param _ _ _ _ hsel1out]
        | rw [visFlags_mov_reg_param _ _ _ _ hs1T1]
        | rw [visFlags_mov_reg_param _ _ _ _ hs2T2]
        | rw [visFlags_mov_reg_param _ _ _ _ (show TEMP_REG1 ≠ FLAGS_REG by decide)]
        | rw [visFlags_mov_reg_param _ _ _ _ (show TEMP_REG2 ≠ FLAGS_REG by decide)]
  all_goals rfl

theorem flagsU_mov_reg_param (w d : Nat) (p : BeParam) (t : S)
    (hd : d ≠ FLAGS_REG) : flagsU (mov_reg_param w d p t) = flagsU t := by
  unfold flagsU
  rw [mov_reg_param_flag_n, mov_reg_param_flag_z, mov_reg_param_flag_c,
    mov_reg_param_flag_v, mov_reg_param_getX_other _ _ _ _ _ (Ne.symm hd)]

theorem flagsU_mov_param_reg (w : Nat) (p : BeParam) (src : Nat) (t : S)
    (hp : p.wf) : flagsU (mov_param_reg w p src t) = flagsU t := by
  unfold flagsU
  rw [mov_param_reg_flag_n, mov_param_reg_flag_z, mov_param_reg_flag_c,
    mov_param_reg_flag_v, mov_param_reg_getX28 _ _ _ _ hp]

theorem flagsU_setR (w r v : Nat) (t : S) (hr : r ≠ FLAGS_REG) :
    flagsU (t.setR w r v) = flagsU t := by
  unfold flagsU
  rw [S.getX_setR_ne _ _ _ _ _ (Ne.symm hr)]
  simp

theorem flagsU_movOp (w rd v : Nat) (t : S) (hrd : rd ≠ FLAGS_REG) :
    flagsU (S.movOp w rd v t) = flagsU t :=
  flagsU_setR _ _ _ _ hrd

theorem flagsU_calc_left_imm (w reg sh maxBits : Nat) (t : S) :
    flagsU (calculate_carry_shift_left_imm w reg sh maxBits t) = flagsU t := by
  obtain ⟨h1, h2, h3, h4⟩ := calculate_carry_shift_left_imm_flags w reg sh maxBits t
  unfold flagsU
  rw [h1, h2, h3, h4, calculate_carry_shift_left_imm_bit4]

theorem flagsU_calc_right_imm (w reg sh : Nat) (t : S) :
    flagsU (calculate_carry_shift_right_imm w reg sh t) = flagsU t := by
  obtain ⟨h1, h2, h3, h4⟩ := calculate_carry_shift_right_imm_flags w reg sh t
  unfold flagsU
  rw [h1, h2, h3, h4, calculate_carry_shift_right_imm_bit4]

theorem flagsU_calc_left (w reg shift maxBits : Nat) (t : S) :
    flagsU (calculate_carry_shift_left w reg shift maxBits t) = flagsU t := by
  obtain ⟨h1, h2, h3, h4⟩ := calculate_carry_shift_left_flags w reg shift maxBits t
  unfold flagsU
  rw [h1, h2, h3, h4, calculate_carry_shift_left_bit4]

theorem flagsU_calc_right (w reg shift : Nat) (t : S) :
    flagsU (calculate_carry_shift_right w reg shift t) = flagsU t := by
  obtain ⟨h1, h2, h3, h4⟩ := calculate_carry_shift_right_flags w reg shift t
  unfold flagsU
  rw [h1, h2, h3, h4, calculate_carry_shift_right_bit4]

/-- op_shift with an empty flag mask preserves the native NZCV and the
persisted U bit (the emulated C bit is overwritten with the shift
carry-out regardless of the mask). -/
theorem op_shift_flagsU (k : ShiftKind) (w : Nat) (dstp src1p src2p : BeParam)
    (s : S) (hdw : dstp.wf) (h1w : src1p.wf) (h2w : src2p.wf) :
    flagsU (op_shift k w 0 dstp src1p src2p s) = flagsU s := by
  have houtput : dstp.selectReg TEMP_REG3 ≠ FLAGS_REG :=
    BeParam.selectReg_ne dstp TEMP_REG3 FLAGS_REG hdw (by decide) (Or.inr (by decide))
  have hs1T1 : src1p.selectReg TEMP_REG1 ≠ FLAGS_REG :=
    BeParam.selectReg_ne src1p TEMP_REG1 FLAGS_REG h1w (by decide) (Or.inr (by decide))
  have hs2T2 : src2p.selectReg TEMP_REG2 ≠ FLAGS_REG :=
    BeParam.selectReg_ne src2p TEMP_REG2 FLAGS_REG h2w (by decide) (Or.inr (by decide))
  unfold op_shift
  dsimp only
  rw [if_neg (show ¬(0 : Nat) ≠ 0 by omega)]
  repeat' split
  all_goals
    repeat
      first
        | rw [flagsU_mov_param_reg _ _ _ _ hdw]
        | rw [flagsU_calc_left_imm]
        | rw [flagsU_calc_right_imm]
        | rw [flagsU_calc_left]
        | rw [flagsU_calc_right]
        | rw [flagsU_setR _ _ _ _ houtput]
        | rw [flagsU_setR _ _ _ _ (show TEMP_REG3 ≠ FLAGS_REG by decide)]
        | rw [flagsU_setR _ _ _ _ (show FUNC_SCRATCH_REG ≠ FLAGS_REG by decide)]
        | rw [flagsU_mov_reg_param _ _ _ _ hs1T1]
        | rw [flagsU_mov_reg_param _ _ _ _ hs2T2]
  all_goals rfl

/-- op_rol with an empty flag mask preserves the native NZCV and the
persisted U bit. -/
theorem op_rol_flagsU (w : Nat) (dstp src1p src2p : BeParam) (s : S)
    (hdw : dstp.wf) (h1w : src1p.wf) (h2w : src2p.wf) :
    flagsU (op_rol w 0 dstp src1p src2p s) = flagsU s := by
  have houtput : dstp.selectReg TEMP_REG3 ≠ FLAGS_REG :=
    BeParam.selectReg_ne dstp TEMP_REG3 FLAGS_REG hdw (by decide) (Or.inr (by decide))
  have hs1T1 : src1p.selectReg TEMP_REG1 ≠ FLAGS_REG :=
    BeParam.selectReg_ne src1p TEMP_REG1 FLAGS_REG h1w (by decide) (Or.inr (by decide))
  have hs2T2 : src2p.selectReg TEMP_REG2 ≠ FLAGS_REG :=
    BeParam.selectReg_ne src2p TEMP_REG2 FLAGS_REG h2w (by decide) (Or.inr (by decide))
  unfold op_rol
  dsimp only
  rw [if_neg (show ¬(0 : Nat) ≠ 0 by omega)]
  repeat' split
  all_goals
    repeat
      first
        | rw [flagsU_mov_param_reg _ _ _ _ hdw]
        | rw [flagsU_calc_left_imm]
        | rw [flagsU_calc_left]
        | rw [flagsU_movOp _ _ _ _ houtput]
        | rw [flagsU_movOp _ _ _ _ (show TEMP_REG3 ≠ FLAGS_REG by decide)]
        | rw [flagsU_setR _ _ _ _ houtput]
        | rw [flagsU_setR _ _ _ _ (show TEMP_REG3 ≠ FLAGS_REG by decide)]
        | rw [flagsU_setR _ _ _ _ (show SCRATCH_REG1 ≠ FLAGS_REG by decide)]
        | rw [flagsU_setR _ _ _ _ (show FUNC_SCRATCH_REG ≠ FLAGS_REG by decide)]
        | rw [flagsU_mov_reg_param _ _ _ _ hs1T1]
        | rw [flagsU_mov_reg_param _ _ _ _ hs2T2]
  all_goals rfl

theorem shift_src_ne_dst (dstp src1p src2p : BeParam)
    (hdw : dstp.wf) (h1w : src1p.wf) :
    src1p.selectReg TEMP_REG1 ≠
      (if canUseDstReg dstp src1p src2p then dstp.selectReg TEMP_REG3
       else TEMP_REG3) := by
  split
  case isTrue h =>
    cases dstp with
    | intReg d =>
        cases src1p with
        | intReg i =>
            show i ≠ d
            unfold canUseDstReg at h
            cases src2p <;> simp_all
        | imm v =>
            show (9 : Nat) ≠ d
            unfold BeParam.wf at hdw
            omega
        | mem a c =>
            show (9 : Nat) ≠ d
            unfold BeParam.wf at hdw
            omega
    | imm v => simp [canUseDstReg] at h
    | mem a c => simp [canUseDstReg] at h
  case isFalse h =>
    exact BeParam.selectReg_ne src1p TEMP_REG1 TEMP_REG3 h1w (by decide)
      (Or.inl (by decide))

/-- The emulated C bit written by an immediate-count shift: the bit of
the source operand that the shift pushes out (false for a zero count). -/
theorem op_shift_imm_carry (k : ShiftKind) (w n : Nat) (dstp src1p : BeParam)
    (s : S) (hw : w = 4 ∨ w = 8) (hdw : dstp.wf) (h1w : src1p.wf)
    (hvi : is_valid_immediate n (if w = 8 then 5 else 4) = true) :
    ((op_shift k w 0 dstp src1p (.imm n) s).getX FLAGS_REG).testBit 0 =
      (if n % (w * 8) = 0 then false
       else if k = ShiftKind.lsl then
         (paramVal w s src1p).testBit (w * 8 - n % (w * 8))
       else (paramVal w s src1p).testBit (n % (w * 8) - 1)) := by
  have hcond : ((BeParam.imm n).isImm &&
      is_valid_immediate (BeParam.imm n).immValue (if w = 8 then 5 else 4)) = true := by
    simp [BeParam.isImm, BeParam.immValue, hvi]
  have hsh : (BeParam.imm n).immValue % (w * 8) < w * 8 :=
    Nat.mod_lt _ (by rcases hw with rfl | rfl <;> omega)
  have hsrcdst := shift_src_ne_dst dstp src1p (.imm n) hdw h1w
  have hselval : (mov_reg_param w (src1p.selectReg TEMP_REG1) src1p s).getR w
      (src1p.selectReg TEMP_REG1) = paramVal w s src1p :=
    mov_reg_param_getR_select w TEMP_REG1 src1p s hw (by decide)
  unfold op_shift
  dsimp only
  rw [if_pos hcond, if_neg (show ¬(0 : Nat) ≠ 0 by omega)]
  rw [mov_param_reg_getX28 _ _ _ _ hdw]
  have hgetR : ∀ v : Nat,
      ((mov_reg_param w (src1p.selectReg TEMP_REG1) src1p s).setR w
        (if canUseDstReg dstp src1p (.imm n) then dstp.selectReg TEMP_REG3
         else TEMP_REG3) v).getR w (src1p.selectReg TEMP_REG1) =
      paramVal w s src1p := by
    intro v
    rw [S.getR_congr w _ _ _ (S.getX_setR_ne _ _ _ _ _ hsrcdst)]
    exact hselval
  split
  case isTrue hk =>
    rw [calculate_carry_shift_right_imm_bit0 _ _ _ _ hw hsh, hgetR]
    have hklsl : ¬k = ShiftKind.lsl := by
      cases k <;> simp_all
    rw [if_neg hklsl]
    rfl
  case isFalse hk =>
    have hklsl : k = ShiftKind.lsl := by
      cases k <;> simp_all
    subst hklsl
    rw [calculate_carry_shift_left_imm_bit0 _ _ _ _ _ hw rfl hsh, hgetR]
    rw [if_pos rfl]
    rfl

/-- C1 counterexample: SHR I0, #4, #1 at size 4 with an EMPTY flag mask
still overwrites the emulated C bit (the carry-out of the shift), so a
following GETFLGS with mask C reads 0 where it read 1 before: the
UML-visible flag state is NOT preserved. -/
theorem C1_counterexample :
    destVal 4 (op_getflgs FLAG_C (.intReg 19)
        (op_shift ShiftKind.lsr 4 0 (.intReg 20) (.imm 4) (.imm 1) s1C))
        (.intReg 19) ≠
      destVal 4 (op_getflgs FLAG_C (.intReg 19) s1C) (.intReg 19) := by
  decide

/-- C1 (amended): with an empty flag-update mask, ADD/ADDC and SUB/SUBB
preserve the whole GETFLGS-visible flag state; SHL/SHR/SAR/ROR and ROL
preserve the native NZCV and the persisted U bit but overwrite the
emulated C bit with the shift carry-out (made explicit for
immediate-count shifts: the bit the shift pushes out, false for a zero
count); and CMP rewrites the flag state from the comparison regardless
of its mask (Z becomes the equality test and the emulated C bit the
below test, with the carry-state tracked as LOGICAL). -/
theorem C1_amended :
    (∀ (carryIn : Bool) (w : Nat) (dstp src1p src2p : BeParam) (s : S),
        dstp.wf → src1p.wf → src2p.wf →
        visFlags (op_add carryIn w 0 dstp src1p src2p s) = visFlags s) ∧
    (∀ (carryIn : Bool) (w : Nat) (dstp src1p src2p : BeParam) (s : S),
        dstp.wf → src1p.wf → src2p.wf →
        visFlags (op_sub carryIn w 0 dstp src1p src2p s) = visFlags s) ∧
    (∀ (k : ShiftKind) (w : Nat) (dstp src1p src2p : BeParam) (s : S),
        dstp.wf → src1p.wf → src2p.wf →
        flagsU (op_shift k w 0 dstp src1p src2p s) = flagsU s) ∧
    (∀ (w : Nat) (dstp src1p src2p : BeParam) (s : S),
        dstp.wf → src1p.wf → src2p.wf →
        flagsU (op_rol w 0 dstp src1p src2p s) = flagsU s) ∧
    (∀ (k : ShiftKind) (w n : Nat) (dstp src1p : BeParam) (s : S),
        (w = 4 ∨ w = 8) → dstp.wf → src1p.wf →
        is_valid_immediate n (if w = 8 then 5 else 4) = true →
        ((op_shift k w 0 dstp src1p (.imm n) s).getX FLAGS_REG).testBit 0 =
          (if n % (w * 8) = 0 then false
           else if k = ShiftKind.lsl then
             (paramVal w s src1p).testBit (w * 8 - n % (w * 8))
           else (paramVal w s src1p).testBit (n % (w * 8) - 1))) ∧
    (∀ (w : Nat) (src1p src2p : BeParam) (s : S),
        (w = 4 ∨ w = 8) → src1p.wf → src2p.wf →
        (op_cmp w src1p src2p s).z =
          decide (paramVal w s src1p = paramVal w s src2p) ∧
        ((op_cmp w src1p src2p s).getX FLAGS_REG).testBit 0 =
          decide (paramVal w s src1p < paramVal w s src2p) ∧
        (op_cmp w src1p src2p s).carry = CarryState.LOGICAL) :=
  ⟨fun c w d p1 p2 s hd h1 h2 => op_add_vis c w d p1 p2 s hd h1 h2,
   fun c w d p1 p2 s hd h1 h2 => op_sub_vis c w d p1 p2 s hd h1 h2,
   fun k w d p1 p2 s hd h1 h2 => op_shift_flagsU k w d p1 p2 s hd h1 h2,
   fun w d p1 p2 s hd h1 h2 => op_rol_flagsU w d p1 p2 s hd h1 h2,
   fun k w n d p1 s hw hd h1 hv => op_shift_imm_carry k w n d p1 s hw hd h1 hv,
   fun w p1 p2 s hw h1 h2 => op_cmp_flags w p1 p2 s hw h1 h2⟩

/-- C1 amended witness: a concrete empty-mask ADD preserving the visible
flags and a concrete empty-mask SHR preserving NZCV and the U bit. -/
theorem C1_amended_witness :
    visFlags (op_add false 4 0 (.intReg 19) (.imm 1) (.imm 2) initState) =
      visFlags initState ∧
    flagsU (op_shift ShiftKind.lsr 4 0 (.intReg 19) (.imm 4) (.imm 1) initState) =
      flagsU initState :=
  ⟨C1_amended.1 false 4 (.intReg 19) (.imm 1) (.imm 2) initState
      (by constructor <;> omega) trivial trivial,
   C1_amended.2.2.1 ShiftKind.lsr 4 (.intReg 19) (.imm 4) (.imm 1) initState
      (by constructor <;> omega) trivial trivial⟩

/-- C8 counterexample: with the value equal to the base pointer (diff
0, which fits an add/sub immediate) and nothing earlier in the ladder
applicable, the memory-reference materializer does NOT emit a
base-relative add - it falls through to the four-move fallback, because
the code requires diff strictly positive or strictly negative. -/
theorem C8_counterexample :
    is_simple_mov_immediate 12379813738877118345 8 = false ∧
    ¬ signedFits ((12379813738877118345 : Int) - 0) 21 ∧
    is_valid_immediate_addsub
      ((12379813738877118345 : Int) - 12379813738877118345).toNat = true ∧
    get_imm_relative true 0 12379813738877118345 12379813738877118345 ≠
      [AImm.addBase] ∧
    get_imm_relative true 0 12379813738877118345 12379813738877118345 =
      [AImm.movMulti] := by
  decide

/-- C8 (amended): the absolute materializer never emits a base-relative
add or sub; the memory-reference materializer, once the single-move and
adr rungs have failed, emits one base-relative add exactly when the
value minus the base is strictly positive and fits an add/sub immediate,
one base-relative sub exactly when it is strictly negative with its
magnitude fitting, and for a zero difference emits no base-relative
instruction at all. -/
theorem C8_amended :
    (∀ (isX : Bool) (codeoffs val : Nat),
        AImm.addBase ∉ get_imm_absolute isX codeoffs val ∧
        AImm.subBase ∉ get_imm_absolute isX codeoffs val) ∧
    (∀ (isX : Bool) (codeoffs baseptr val : Nat),
        ¬ is_simple_mov_immediate val (if isX then 8 else 4) = true →
        ¬ (isX && is_valid_immediate_mask val 4) = true →
        ¬ signedFits ((val : Int) - codeoffs) 21 →
        ((0 < (val : Int) - baseptr ∧
            is_valid_immediate_addsub ((val : Int) - baseptr).toNat = true →
          get_imm_relative isX codeoffs baseptr val = [AImm.addBase]) ∧
         ((val : Int) - baseptr < 0 ∧
            is_valid_immediate_addsub (-((val : Int) - baseptr)).toNat = true →
          get_imm_relative isX codeoffs baseptr val = [AImm.subBase]) ∧
         ((val : Int) - baseptr = 0 →
          AImm.addBase ∉ get_imm_relative isX codeoffs baseptr val ∧
          AImm.subBase ∉ get_imm_relative isX codeoffs baseptr val))) := by
  constructor
  · intro isX codeoffs val
    constructor <;>
      · unfold get_imm_absolute
        dsimp only
        repeat' split
        all_goals simp
  · intro isX codeoffs baseptr val h1 h2 h3
    unfold get_imm_relative
    rw [if_neg h1, if_neg h2, if_neg h3]
    refine ⟨?_, ?_, ?_⟩
    · intro hpos
      rw [if_pos hpos]
    · intro hneg
      rw [if_neg (fun hpos => by omega), if_pos hneg]
    · intro hzero
      rw [if_neg (fun hpos => by omega), if_neg (fun hneg => by omega)]
      constructor <;>
        · dsimp only
          repeat' split
          all_goals simp

/-- C8 amended witness: the base pointer 2^40 with value 2^40 + 5 takes
the base-relative add, and a small absolute value emits no base ops. -/
theorem C8_amended_witness :
    AImm.addBase ∉ get_imm_absolute true 0 123 ∧
    get_imm_relative true 0 1099511627776 1099511627781 = [AImm.addBase] :=
  ⟨(C8_amended.1 true 0 123).1,
   (C8_amended.2 true 0 1099511627776 1099511627781 (by decide) (by decide)
      (by decide)).1 ⟨by decide, by decide⟩⟩

/-- C2 witness: DIVU I0,I1 dividend 7, divisor 3 at size 4 writes
quotient 2 and remainder 1; the divisor is nonzero so the zero branch is
vacuous. -/
theorem C2_div_witness :
    ((paramVal 4 initState (.imm 3) = 0 →
      (op_div false 4 0 (.intReg 19) (.intReg 20) (.imm 7) (.imm 3) initState).v = true ∧
      destVal 4 (op_div false 4 0 (.intReg 19) (.intReg 20) (.imm 7) (.imm 3) initState)
          (.intReg 19) = destVal 4 initState (.intReg 19) ∧
      destVal 4 (op_div false 4 0 (.intReg 19) (.intReg 20) (.imm 7) (.imm 3) initState)
          (.intReg 20) = destVal 4 initState (.intReg 20)) ∧
    (paramVal 4 initState (.imm 3) ≠ 0 →
      destVal 4 (op_div false 4 0 (.intReg 19) (.intReg 20) (.imm 7) (.imm 3) initState)
          (.intReg 19) =
        (if false then sdivVal (4 * 8) (paramVal 4 initState (.imm 7))
            (paramVal 4 initState (.imm 3))
         else udivVal (4 * 8) (paramVal 4 initState (.imm 7))
            (paramVal 4 initState (.imm 3))) ∧
      (BeParam.peq (.intReg 19) (.intReg 20) = false →
        destVal 4 (op_div false 4 0 (.intReg 19) (.intReg 20) (.imm 7) (.imm 3) initState)
            (.intReg 20) =
          msubVal (4 * 8)
            (if false then sdivVal (4 * 8) (paramVal 4 initState (.imm 7))
                (paramVal 4 initState (.imm 3))
             else udivVal (4 * 8) (paramVal 4 initState (.imm 7))
                (paramVal 4 initState (.imm 3)))
            (paramVal 4 initState (.imm 3)) (paramVal 4 initState (.imm 7))))) :=
  C2_div false 4 0 (.intReg 19) (.intReg 20) (.imm 7) (.imm 3) initState
    (Or.inl rfl) (by constructor <;> omega) (by constructor <;> omega)
    trivial trivial (by decide) (by decide) trivial

end Drcbearm64

